import Mathlib

/-!
  # Verification of the Gmail_backend send / spam pipeline

  Shallow embedding of the spam classifier (`spamDetection.js`), the
  send fan-out (`POST /send` in `routes/email.js`), reply and forward,
  move-to-trash, and label deletion, over an explicit server state
  (users, emails, labels, auto-reply configs, notifications).

  Persistence faults are modelled by an oracle `sf : Nat -> Bool` over a
  running count of email-save operations: `sf k = true` means the k-th
  `save()` call of the request throws.  MongoDB performs no rollback, so
  on a fault the request keeps the state persisted so far and reports a
  server error (the outer catch handler).
-/

set_option maxHeartbeats 1600000

namespace GmailBackend

/-- A record of the User collection: only the fields the core reads. -/
structure UserRec where
  uid : Nat
  email : String
  isEmailVerified : Bool
deriving DecidableEq

/-- An attachment `{url, filename, size}` as stored on an email. -/
structure Attachment where
  url : String
  filename : String
  size : Nat
deriving DecidableEq

/-- The folder enum of the Email schema. -/
inductive Folder
  | inbox
  | sent
  | draft
  | starred
  | trash
  | spam
deriving DecidableEq

/-- A record of the Email collection (`models/Email.js` schema). -/
structure EmailRec where
  eid : Nat
  sender : String
  recipients : List String
  cc : List String
  bcc : List String
  subject : String
  body : String
  attachments : List Attachment
  folder : Folder
  labels : List Nat
  isRead : Bool
  isStarred : Bool
  isSpam : Bool
  sentAt : Nat
deriving DecidableEq

/-- A record of the Label collection (`models/Label.js` schema). -/
structure LabelRec where
  lid : Nat
  userId : Nat
  name : String
  isSystemLabel : Bool
deriving DecidableEq

/-- A record of the AutoReply collection (`models/AutoReply.js` schema). -/
structure AutoReplyRec where
  userId : Nat
  enabled : Bool
  message : String
deriving DecidableEq

/-- One `newEmail` event emitted to a socket room.  The auto-reply
notification payload carries no `isSpam` field, hence the `Option`. -/
structure Notification where
  channel : String
  nsender : String
  nsubject : String
  nsentAt : Nat
  nisSpam : Option Bool
deriving DecidableEq

/-- The persistent server state plus instrumentation: `saveOps` counts
email-save operations (for the fault oracle) and `classifierCalls` counts
invocations of the spam classifier. -/
structure ServerState where
  users : List UserRec
  emails : List EmailRec
  labels : List LabelRec
  autoReplies : List AutoReplyRec
  notifications : List Notification
  nextEmailId : Nat
  nextLabelId : Nat
  saveOps : Nat
  classifierCalls : Nat
deriving DecidableEq

/-! ## The spam classifier (`spamDetection.js`, `detectSpam`) -/

/-- The fixed keyword list of rule 1. -/
def spamKeywords : List String :=
  ["win a prize", "free offer", "click here", "urgent", "limited time offer",
   "make money fast", "lottery", "guaranteed", "viagra", "cheap pills"]

/-- `s.toLowerCase()` as a character list (ASCII lowering, as
`Char.toLower` performs and as every keyword requires). -/
def mkLower (s : String) : List Char :=
  s.data.map Char.toLower

/-- `haystack.includes(needle)`: the needle occurs as a contiguous
substring. -/
def hasSub (pat : List Char) : List Char → Bool
  | [] => pat.isEmpty
  | c :: rest => pat.isPrefixOf (c :: rest) || hasSub pat rest

/-- Rule 1: some keyword occurs in the lowered subject or body. -/
def hasSpamKeyword (subjectL bodyL : List Char) : Bool :=
  spamKeywords.any fun kw => hasSub kw.data subjectL || hasSub kw.data bodyL

/-- A character the URL regex `[^\s<>"']` accepts. -/
def isUrlChar (c : Char) : Bool :=
  !c.isWhitespace && c.val != 60 && c.val != 62 && c.val != 34 && c.val != 39

/-- Strip a literal `http://` or `https://` head (the regex alternation
`https?:\/\/`), returning the remainder. -/
def urlHead : List Char → Option (List Char)
  | 'h' :: 't' :: 't' :: 'p' :: 's' :: ':' :: '/' :: '/' :: rest => some rest
  | 'h' :: 't' :: 't' :: 'p' :: ':' :: '/' :: '/' :: rest => some rest
  | _ => none

theorem urlHead_length {cs rest : List Char} (h : urlHead cs = some rest) :
    rest.length + 7 ≤ cs.length := by
  unfold urlHead at h
  split at h <;> simp_all

theorem length_dropWhile_le (p : Char → Bool) (l : List Char) :
    (l.dropWhile p).length ≤ l.length := by
  induction l with
  | nil => simp [List.dropWhile]
  | cons a l ih =>
    by_cases h : p a
    · simp only [List.dropWhile, h, List.length_cons]
      omega
    · simp [List.dropWhile, h]

/-- Fuel-indexed scanner for URL occurrences; the fuel only bounds the
recursion depth (each step strictly shortens the list, so `cs.length` fuel
is always enough). -/
def countUrlsAux : Nat → List Char → Nat
  | 0, _ => 0
  | _ + 1, [] => 0
  | fuel + 1, c :: rest =>
    match urlHead (c :: rest) with
    | some r =>
      match r with
      | [] => countUrlsAux fuel rest
      | c2 :: r3 =>
        if isUrlChar c2 then countUrlsAux fuel (r3.dropWhile isUrlChar) + 1
        else countUrlsAux fuel rest
    | none => countUrlsAux fuel rest

/-- `body.match(/https?:\/\/[^\s<>"']+/g)` occurrence count: scan left to
right, and at each position where the scheme head plus at least one URL
character matches, consume the maximal (greedy) run and count one. -/
def countUrls (cs : List Char) : Nat :=
  countUrlsAux cs.length cs

/-- `filename.split('.').pop().toLowerCase()`: the lowered segment after
the last dot (the whole name when no dot occurs, empty for a trailing
dot). -/
def extOf (s : String) : List Char :=
  ((s.data.reverse.takeWhile fun c => c.val != 46).reverse).map Char.toLower

/-- The allowed attachment extensions, as character lists. -/
def allowedExts : List (List Char) :=
  [String.data "jpg", String.data "jpeg", String.data "png", String.data "pdf"]

/-- Rule 5 per attachment: larger than 5 MiB, or extension outside the
allowed set. -/
def suspiciousAtt (att : Attachment) : Bool :=
  att.size > 5 * 1024 * 1024 || !(allowedExts.contains (extOf att.filename))

/-- `User.findOne({ email: sender, isEmailVerified: true })`. -/
def findVerified (users : List UserRec) (e : String) : Option UserRec :=
  users.find? fun u => u.email == e && u.isEmailVerified

/-- `detectSpam(email, sender)` (`spamDetection.js:159`): the five rules
in source order, short-circuiting on the first that holds. -/
def detectSpam (users : List UserRec) (m : EmailRec) (sender : String) : Bool :=
  let subjectL := mkLower m.subject
  let bodyL := mkLower m.body
  if hasSpamKeyword subjectL bodyL then true
  else if countUrls bodyL > 5 then true
  else if (findVerified users sender).isNone then true
  else if m.recipients.length > 10 then true
  else if m.attachments.any suspiciousAtt then true
  else false

/-! ## The send fan-out (`POST /send`, `routes/email.js:79`) -/

/-- The truthiness filter `email => typeof email === 'string' && email.trim()`:
keep entries with some non-whitespace character. -/
def notBlank (s : String) : Bool :=
  s.data.any fun c => !c.isWhitespace

/-- `Label.ensureSpamLabel(userId)` (`models/Label.js:11`): return the
existing system Spam label, or create one. -/
def ensureSpamLabel (st : ServerState) (userId : Nat) : LabelRec × ServerState :=
  match st.labels.find? (fun l => l.userId == userId && l.name == "Spam" && l.isSystemLabel) with
  | some l => (l, st)
  | none =>
    let l : LabelRec := ⟨st.nextLabelId, userId, "Spam", true⟩
    (l, { st with labels := st.labels ++ [l], nextLabelId := st.nextLabelId + 1 })

/-- An email `save()` call: the fault oracle `sf` decides, from the running
save count, whether this `await` throws.  On success the record is appended
with the next fresh id; on a fault (`.error`) nothing is appended but the
state persisted so far is kept (no rollback). -/
def saveEmail (sf : Nat → Bool) (st : ServerState) (mk : Nat → EmailRec) :
    Except ServerState ServerState :=
  let st1 := { st with saveOps := st.saveOps + 1 }
  if sf st.saveOps then .error st1
  else .ok { st1 with
    emails := st1.emails ++ [mk st1.nextEmailId],
    nextEmailId := st1.nextEmailId + 1 }

/-- `io.to(channel).emit('newEmail', payload)`. -/
def pushNotif (st : ServerState) (channel sender subject : String) (sentAt : Nat)
    (isSpam : Option Bool) : ServerState :=
  { st with notifications := st.notifications ++ [⟨channel, sender, subject, sentAt, isSpam⟩] }

/-- Per-request context of the fan-out loops: the fields every copy shares,
the verified-user query result `rus`, and the shared verdict `v`. -/
structure SendCtx where
  senderEmail : String
  cc : List String
  bcc : List String
  subject : String
  body : String
  attachments : List Attachment
  sentAt : Nat
  rus : List UserRec
  v : Bool

/-- The per-address inbox-or-spam copy (`routes/email.js:182`, `:262`,
`:301`): `recipients` is the singleton of the receiving address while `cc`
and `bcc` carry the full original lists. -/
def mkCopy (ctx : SendCtx) (a : String) (lbls : List Nat) (n : Nat) : EmailRec :=
  { eid := n, sender := ctx.senderEmail, recipients := [a], cc := ctx.cc, bcc := ctx.bcc,
    subject := ctx.subject, body := ctx.body, attachments := ctx.attachments,
    folder := if ctx.v then .spam else .inbox, labels := lbls,
    isRead := false, isStarred := false, isSpam := ctx.v, sentAt := ctx.sentAt }

/-- The auto-reply message persisted to the original sender
(`routes/email.js:217` and `:227`): schema defaults fill `cc`, `bcc`,
`labels`, `isSpam`. -/
def mkAutoReply (ctx : SendCtx) (a msg : String) (f : Folder) (n : Nat) : EmailRec :=
  { eid := n, sender := a, recipients := [ctx.senderEmail], cc := [], bcc := [],
    subject := "Auto Reply: " ++ ctx.subject, body := msg, attachments := [],
    folder := f, labels := [], isRead := false, isStarred := false,
    isSpam := false, sentAt := ctx.sentAt }

/-- The Spam-label step at the head of a loop iteration
(`routes/email.js:176`): when the verdict is spam and the address resolves
in the query result, ensure the recipient's Spam label. -/
def labelStage (ctx : SendCtx) (st : ServerState) (a : String) :
    Option LabelRec × ServerState :=
  match ctx.rus.find? (fun u => u.email == a) with
  | some u =>
    if ctx.v then
      let p := ensureSpamLabel st u.uid
      (some p.1, p.2)
    else (none, st)
  | none => (none, st)

/-- Persist the auto-reply pair for address `a` — the reply record in `a`'s
sent folder and the copy for the original sender's inbox — then notify the
original sender (`routes/email.js:217-249`).  No classification runs here. -/
def arSend (sf : Nat → Bool) (ctx : SendCtx) (st : ServerState) (a msg : String) :
    Except ServerState ServerState :=
  match saveEmail sf st (mkAutoReply ctx a msg .sent) with
  | .error e => .error e
  | .ok st4 =>
    match saveEmail sf st4 (mkAutoReply ctx a msg .inbox) with
    | .error e => .error e
    | .ok st5 =>
      .ok (pushNotif st5 ctx.senderEmail a ("Auto Reply: " ++ ctx.subject) ctx.sentAt none)

/-- The auto-reply tail of a To-loop iteration (`routes/email.js:214`):
only when the verdict is not spam and the address has an enabled
auto-reply config and a verified identity, run `arSend`. -/
def arStage (sf : Nat → Bool) (ctx : SendCtx) (doAR : Bool) (st : ServerState)
    (a : String) : Except ServerState ServerState :=
  if doAR then
    if ctx.v then .ok st
    else
      match ctx.rus.find? (fun u => u.email == a) with
      | none => .ok st
      | some u =>
        match st.autoReplies.find? (fun r => r.userId == u.uid) with
        | none => .ok st
        | some ar =>
          if ar.enabled && u.isEmailVerified then arSend sf ctx st a ar.message
          else .ok st
  else .ok st

/-- One iteration of the recipient loop (`routes/email.js:174`): ensure the
Spam label when the verdict is spam, persist the copy, notify, and — in the
To loop only (`doAR`) — consult the auto-reply registry. -/
def deliverOne (sf : Nat → Bool) (ctx : SendCtx) (doAR : Bool) (st : ServerState)
    (a : String) : Except ServerState ServerState :=
  match saveEmail sf (labelStage ctx st a).2
      (mkCopy ctx a (match (labelStage ctx st a).1 with
        | some l => [l.lid]
        | none => [])) with
  | .error e => .error e
  | .ok st2 =>
    arStage sf ctx doAR (pushNotif st2 a ctx.senderEmail ctx.subject ctx.sentAt (some ctx.v)) a

/-- A fan-out loop over one of the three address lists.  An uncaught fault
in an iteration aborts the remaining iterations (only the notification
`emit` sits inside a per-iteration try/catch in the source). -/
def fanLoop (sf : Nat → Bool) (ctx : SendCtx) (doAR : Bool) :
    List String → ServerState → Except ServerState ServerState
  | [], st => .ok st
  | a :: rest, st =>
    match deliverOne sf ctx doAR st a with
    | .error e => .error e
    | .ok st2 => fanLoop sf ctx doAR rest st2

/-- Outcome of a send request: a 400 validation error (no writes yet), a
500 server error from the outer catch (partial writes kept), or success. -/
inductive SendOut
  | vErr (msg : String) (st : ServerState)
  | sErr (st : ServerState)
  | ok (st : ServerState)
deriving DecidableEq

def SendOut.isOk : SendOut → Bool
  | .ok _ => true
  | _ => false

def SendOut.stOf : SendOut → ServerState
  | .vErr _ s => s
  | .sErr s => s
  | .ok s => s

/-- Whether the auto-reply branch condition of `routes/email.js:216` holds
for address `a` (given the verdict is not spam and `a` resolves in the
query result `rus`): an auto-reply config exists, is enabled, and the
resolved identity is verified. -/
def arConfigured (rus : List UserRec) (ars : List AutoReplyRec) (a : String) : Bool :=
  match rus.find? (fun u => u.email == a) with
  | some u =>
    (match ars.find? (fun r => r.userId == u.uid) with
     | some ar => ar.enabled && u.isEmailVerified
     | none => false)
  | none => false

/-- Whether the auto-reply fires for address `a` on this send: the shared
verdict is not spam and the config condition holds. -/
def arFire (ctx : SendCtx) (ars : List AutoReplyRec) (a : String) : Bool :=
  !ctx.v && arConfigured ctx.rus ars a

/-- The configured auto-reply text for address `a` (meaningful when
`arConfigured` holds). -/
def arMsg (ctx : SendCtx) (ars : List AutoReplyRec) (a : String) : String :=
  match ctx.rus.find? (fun u => u.email == a) with
  | some u =>
    (match ars.find? (fun r => r.userId == u.uid) with
     | some ar => ar.message
     | none => "")
  | none => ""

/-- The sender's sent-folder copy (`routes/email.js:154`). -/
def mkSent (senderEmail : String) (recipients cc bcc : List String)
    (subject body : String) (attachments : List Attachment) (now n : Nat) : EmailRec :=
  { eid := n, sender := senderEmail, recipients := recipients, cc := cc, bcc := bcc,
    subject := subject, body := body, attachments := attachments,
    folder := .sent, labels := [], isRead := false, isStarred := false,
    isSpam := false, sentAt := now }

/-- `[...new Set(allEmails)]` (`routes/email.js:120`): duplicate removal.
Only membership in the result is ever consulted (the `$in` query), so the
dedup is modelled by a membership-preserving structural recursion. -/
def dedupMem : List String → List String
  | [] => []
  | a :: rest =>
    if (dedupMem rest).contains a then dedupMem rest else a :: dedupMem rest

theorem mem_dedupMem {l : List String} {a : String} : a ∈ dedupMem l ↔ a ∈ l := by
  induction l with
  | nil => simp [dedupMem]
  | cons x rest ih =>
    unfold dedupMem
    by_cases h : (dedupMem rest).contains x = true
    · rw [if_pos h]
      constructor
      · intro h2
        exact List.mem_cons_of_mem x (ih.mp h2)
      · intro h2
        rcases List.mem_cons.mp h2 with rfl | h3
        · exact List.elem_iff.mp h
        · exact ih.mpr h3
    · rw [if_neg h]
      constructor
      · intro h2
        rcases List.mem_cons.mp h2 with rfl | h3
        · exact List.mem_cons_self _ _
        · exact List.mem_cons_of_mem x (ih.mp h3)
      · intro h2
        rcases List.mem_cons.mp h2 with rfl | h3
        · exact List.mem_cons_self _ _
        · exact List.mem_cons_of_mem x (ih.mpr h3)

/-- The verified-directory query of `routes/email.js:121`:
`User.find({ email: { $in: allEmails }, isEmailVerified: true })` over the
deduplicated union of the three (already filtered) address lists. -/
def sendRus (st0 : ServerState) (recipients cc bcc : List String) : List UserRec :=
  st0.users.filter fun u =>
    (dedupMem (recipients ++ cc ++ bcc)).contains u.email && u.isEmailVerified

/-- The shared verdict of a send: `detectSpam(sentEmail, sender)` on the
just-built sent document (`routes/email.js:171`). -/
def sendVerdict (st0 : ServerState) (senderEmail : String)
    (recipients cc bcc : List String) (subject body : String)
    (attachments : List Attachment) (now : Nat) : Bool :=
  detectSpam st0.users (mkSent senderEmail recipients cc bcc subject body attachments now 0)
    senderEmail

/-- The loop context a send builds: shared copy fields, the directory query
result, and the shared verdict. -/
def sendCtxOf (st0 : ServerState) (senderEmail : String)
    (recipients cc bcc : List String) (subject body : String)
    (attachments : List Attachment) (now : Nat) : SendCtx :=
  { senderEmail := senderEmail, cc := cc, bcc := bcc, subject := subject,
    body := body, attachments := attachments, sentAt := now,
    rus := sendRus st0 recipients cc bcc,
    v := sendVerdict st0 senderEmail recipients cc bcc subject body attachments now }

/-- `recipients.every(email => validEmails.has(email))`
(`routes/email.js:124`) over the filtered To list. -/
def validAllR (st0 : ServerState) (recipients0 cc0 bcc0 : List String) : Bool :=
  (recipients0.filter notBlank).all fun e =>
    (sendRus st0 (recipients0.filter notBlank) (cc0.filter notBlank)
      (bcc0.filter notBlank)).any fun u => u.email == e

/-- `cc.every(c => validEmails.has(c))` (`routes/email.js:127`). -/
def validAllC (st0 : ServerState) (recipients0 cc0 bcc0 : List String) : Bool :=
  (cc0.filter notBlank).all fun e =>
    (sendRus st0 (recipients0.filter notBlank) (cc0.filter notBlank)
      (bcc0.filter notBlank)).any fun u => u.email == e

/-- `bcc.every(b => validEmails.has(b))` (`routes/email.js:130`). -/
def validAllB (st0 : ServerState) (recipients0 cc0 bcc0 : List String) : Bool :=
  (bcc0.filter notBlank).all fun e =>
    (sendRus st0 (recipients0.filter notBlank) (cc0.filter notBlank)
      (bcc0.filter notBlank)).any fun u => u.email == e

/-- `POST /send` (`routes/email.js:79`) after authentication, body parsing
and attachment upload: filter blank addresses, validate every address
across the three lists against the verified directory (all-or-nothing,
before any write), persist the sent copy, classify once, then run the
three fan-out loops. -/
def sendEmailF (sf : Nat → Bool) (st0 : ServerState) (senderEmail : String)
    (recipients0 cc0 bcc0 : List String) (subject body : String)
    (attachments : List Attachment) (now : Nat) : SendOut :=
  if (recipients0.filter notBlank).isEmpty then
    .vErr "At least one valid recipient is required" st0
  else if !(validAllR st0 recipients0 cc0 bcc0) then
    .vErr "Some recipients not found or unverified" st0
  else if !(validAllC st0 recipients0 cc0 bcc0) then
    .vErr "Some CC recipients not found or unverified" st0
  else if !(validAllB st0 recipients0 cc0 bcc0) then
    .vErr "Some BCC recipients not found or unverified" st0
  else
    match saveEmail sf st0 (mkSent senderEmail (recipients0.filter notBlank)
        (cc0.filter notBlank) (bcc0.filter notBlank) subject body attachments now) with
    | .error e => .sErr e
    | .ok st1 =>
      match fanLoop sf (sendCtxOf st0 senderEmail (recipients0.filter notBlank)
          (cc0.filter notBlank) (bcc0.filter notBlank) subject body attachments now)
          true (recipients0.filter notBlank)
          { st1 with classifierCalls := st1.classifierCalls + 1 } with
      | .error e => .sErr e
      | .ok st3 =>
        match fanLoop sf (sendCtxOf st0 senderEmail (recipients0.filter notBlank)
            (cc0.filter notBlank) (bcc0.filter notBlank) subject body attachments now)
            false (cc0.filter notBlank) st3 with
        | .error e => .sErr e
        | .ok st4 =>
          match fanLoop sf (sendCtxOf st0 senderEmail (recipients0.filter notBlank)
              (cc0.filter notBlank) (bcc0.filter notBlank) subject body attachments now)
              false (bcc0.filter notBlank) st4 with
          | .error e => .sErr e
          | .ok st5 => .ok st5

/-- The no-fault oracle: every `save()` succeeds. -/
def noFault : Nat → Bool := fun _ => false

/-! ## Reply and forward (`routes/email.js:409`, `:498`) -/

/-- Whether `userEmail` is the sender or appears in recipients, cc or bcc —
the `$or` participant filter used by the read/star/trash/delete routes. -/
def isParticipant (userEmail : String) (e : EmailRec) : Bool :=
  e.sender == userEmail || e.recipients.contains userEmail ||
    e.cc.contains userEmail || e.bcc.contains userEmail

/-- `POST /reply/:emailId`: look the original up by id alone, require its
sender to be a verified identity, classify the reply once, persist the
caller's sent copy and the single recipient copy, notify. -/
def replyRun (st : ServerState) (callerEmail : String) (emailId : Nat)
    (body : String) (attachments : List Attachment) (now : Nat) :
    Except String ServerState :=
  match st.emails.find? (fun e => e.eid == emailId) with
  | none => .error "Email not found"
  | some orig =>
    match findVerified st.users orig.sender with
    | none => .error "Recipient email not found or unverified"
    | some ru =>
      let subj := "Re: " ++ orig.subject
      let bod := body ++ "<br><br>--- Original Message ---<br>" ++ orig.body
      let replyDoc : EmailRec :=
        { eid := 0, sender := callerEmail, recipients := [orig.sender], cc := [], bcc := [],
          subject := subj, body := bod, attachments := attachments, folder := .sent,
          labels := [], isRead := false, isStarred := false, isSpam := false, sentAt := now }
      let v := detectSpam st.users replyDoc callerEmail
      let st1 := { st with classifierCalls := st.classifierCalls + 1 }
      let labelStep : Option LabelRec × ServerState :=
        if v then
          let p := ensureSpamLabel st1 ru.uid
          (some p.1, p.2)
        else (none, st1)
      let st2 := labelStep.2
      let st3 := { st2 with
        emails := st2.emails ++ [{ replyDoc with eid := st2.nextEmailId }],
        nextEmailId := st2.nextEmailId + 1 }
      let lbls : List Nat :=
        match labelStep.1 with
        | some l => if v then [l.lid] else []
        | none => []
      let inboxDoc : EmailRec :=
        { eid := st3.nextEmailId, sender := callerEmail, recipients := [orig.sender],
          cc := [], bcc := [], subject := subj, body := bod, attachments := attachments,
          folder := if v then .spam else .inbox, labels := lbls,
          isRead := false, isStarred := false, isSpam := v, sentAt := now }
      let st4 := { st3 with
        emails := st3.emails ++ [inboxDoc], nextEmailId := st3.nextEmailId + 1 }
      .ok (pushNotif st4 orig.sender callerEmail subj now (some v))

/-- `POST /forward/:emailId`: look the original up by id alone, require
every forward recipient to be a verified identity (the query-size check of
line 526), concatenate the original's attachments with the new ones,
classify once, persist the sent copy and one copy per recipient, notify. -/
def forwardRun (st : ServerState) (callerEmail : String) (emailId : Nat)
    (recipients : List String) (body : String) (newAtts : List Attachment)
    (now : Nat) : Except String ServerState :=
  if recipients.isEmpty then .error "Recipients are required and must be an array"
  else
    match st.emails.find? (fun e => e.eid == emailId) with
    | none => .error "Email not found"
    | some orig =>
      let rus := st.users.filter fun u => recipients.contains u.email && u.isEmailVerified
      if rus.length != recipients.length then .error "Some recipients not found or unverified"
      else
        let atts := orig.attachments ++ newAtts
        let subj := "Fwd: " ++ orig.subject
        let bod := body ++ "<br><br>--- Forwarded Message ---<br>" ++ orig.body
        let fwdDoc : EmailRec :=
          { eid := 0, sender := callerEmail, recipients := recipients, cc := [], bcc := [],
            subject := subj, body := bod, attachments := atts, folder := .sent,
            labels := [], isRead := false, isStarred := false, isSpam := false, sentAt := now }
        let v := detectSpam st.users fwdDoc callerEmail
        let st1 := { st with classifierCalls := st.classifierCalls + 1 }
        let st2 := { st1 with
          emails := st1.emails ++ [{ fwdDoc with eid := st1.nextEmailId }],
          nextEmailId := st1.nextEmailId + 1 }
        let ctx : SendCtx :=
          { senderEmail := callerEmail, cc := [], bcc := [], subject := subj,
            body := bod, attachments := atts, sentAt := now, rus := rus, v := v }
        match fanLoop noFault ctx false recipients st2 with
        | .error _ => .error "Server error"
        | .ok st3 => .ok st3

/-! ## Status updates and labels -/

/-- Replace the first element satisfying `p` by `f` of it (mongoose
`updateOne` semantics). -/
def updateFirst (p : EmailRec → Bool) (f : EmailRec → EmailRec) :
    List EmailRec → List EmailRec
  | [] => []
  | e :: rest => if p e then f e :: rest else e :: updateFirst p f rest

/-- `PATCH /move-to-trash/:emailId` (`routes/email.js:756`): set
`folder: 'trash'` on the first email matching the id and the participant
filter; 404 when none matches.  `isSpam` is left untouched. -/
def moveToTrash (st : ServerState) (userEmail : String) (emailId : Nat) :
    Except String ServerState :=
  let p : EmailRec → Bool := fun e => e.eid == emailId && isParticipant userEmail e
  if st.emails.any p then
    .ok { st with emails := updateFirst p (fun e => { e with folder := .trash }) st.emails }
  else .error "Email not found or unauthorized"

/-- Remove the first element satisfying `p` (mongoose `deleteOne`). -/
def eraseFirstLabel (p : LabelRec → Bool) : List LabelRec → List LabelRec
  | [] => []
  | l :: rest => if p l then rest else l :: eraseFirstLabel p rest

/-- Detach a label id from one email (`$pull` on `labels`). -/
def detachLabel (labelId : Nat) (e : EmailRec) : EmailRec :=
  { e with labels := e.labels.filter fun x => x != labelId }

/-- `DELETE /labels/:labelId` (`routes/email.js:885`): 404 when the label
is not the caller's, a policy error for a system label (before any write),
otherwise delete the label and detach it from every email. -/
def deleteLabel (st : ServerState) (userId : Nat) (labelId : Nat) :
    Except String ServerState :=
  match st.labels.find? (fun l => l.lid == labelId && l.userId == userId) with
  | none => .error "Label not found or unauthorized"
  | some l =>
    if l.isSystemLabel then .error "Cannot delete system label"
    else
      .ok { st with
        labels := eraseFirstLabel (fun l2 => l2.lid == labelId && l2.userId == userId) st.labels,
        emails := st.emails.map (detachLabel labelId) }

/-! ## The classifier with its fault model (`spamDetection.js` try/catch) -/

/-- Outcome of the directory lookup inside `detectSpam`: the query resolves
to whether a verified sender record exists, or the `await` throws. -/
def dirLookup (users : List UserRec) (sender : String) : Except Unit Bool :=
  .ok (findVerified users sender).isSome

/-- The body of `detectSpam`'s try block, with its two fault sources
explicit: an absent `subject`/`body` field makes `.toLowerCase()` throw,
and the directory lookup may itself throw.  Rules fire in source order, so
a lookup fault is only reached when rules 1 and 2 are false. -/
def detectSpamE (lookup : Except Unit Bool) (subject body : Option String)
    (recipients : List String) (atts : List Attachment) : Except Unit Bool :=
  match subject with
  | none => .error ()
  | some subj =>
    match body with
    | none => .error ()
    | some bod =>
      let subjectL := mkLower subj
      let bodyL := mkLower bod
      if hasSpamKeyword subjectL bodyL then .ok true
      else if countUrls bodyL > 5 then .ok true
      else
        match lookup with
        | .error e => .error e
        | .ok found =>
          if !found then .ok true
          else if recipients.length > 10 then .ok true
          else if atts.any suspiciousAtt then .ok true
          else .ok false

/-- `detectSpam` as called: the catch handler maps any internal fault to
`false` ("not spam"); no state is read or written beyond the lookup. -/
def detectSpamCaught (lookup : Except Unit Bool) (subject body : Option String)
    (recipients : List String) (atts : List Attachment) : Bool :=
  match detectSpamE lookup subject body recipients atts with
  | .ok b => b
  | .error _ => false

/-! ## Infrastructure: state evolution through the fan-out -/

/-- What one fan-out step preserves: users, auto-reply configs and the
classifier counter are untouched; emails and labels only grow at the end. -/
def Grows (st st2 : ServerState) : Prop :=
  st2.users = st.users ∧ st2.autoReplies = st.autoReplies ∧
    st2.classifierCalls = st.classifierCalls ∧
    st.emails <+: st2.emails ∧ st.labels <+: st2.labels

theorem Grows.refl (st : ServerState) : Grows st st :=
  ⟨rfl, rfl, rfl, List.prefix_refl _, List.prefix_refl _⟩

theorem Grows.trans {a b c : ServerState} (h1 : Grows a b) (h2 : Grows b c) : Grows a c :=
  ⟨h2.1.trans h1.1, h2.2.1.trans h1.2.1, h2.2.2.1.trans h1.2.2.1,
    h1.2.2.2.1.trans h2.2.2.2.1, h1.2.2.2.2.trans h2.2.2.2.2⟩

theorem grows_pushNotif (st : ServerState) (c s subj : String) (t : Nat) (b : Option Bool) :
    Grows st (pushNotif st c s subj t b) :=
  ⟨rfl, rfl, rfl, List.prefix_refl _, List.prefix_refl _⟩

theorem pushNotif_emails (st : ServerState) (c s subj : String) (t : Nat) (b : Option Bool) :
    (pushNotif st c s subj t b).emails = st.emails := rfl

theorem saveEmail_noFault_eq (st : ServerState) (mk : Nat → EmailRec) :
    saveEmail noFault st mk = .ok { st with
      saveOps := st.saveOps + 1,
      emails := st.emails ++ [mk st.nextEmailId],
      nextEmailId := st.nextEmailId + 1 } := rfl

theorem grows_saveEmail_ok {sf : Nat → Bool} {st st2 : ServerState} {mk : Nat → EmailRec}
    (h : saveEmail sf st mk = .ok st2) : Grows st st2 := by
  unfold saveEmail at h
  split at h
  · exact absurd h (by simp)
  · cases h
    exact ⟨rfl, rfl, rfl, List.prefix_append _ _, List.prefix_refl _⟩

theorem saveEmail_ok_emails {sf : Nat → Bool} {st st2 : ServerState} {mk : Nat → EmailRec}
    (h : saveEmail sf st mk = .ok st2) :
    st2.emails = st.emails ++ [mk st.nextEmailId] ∧ st2.nextEmailId = st.nextEmailId + 1 ∧
      st2.labels = st.labels ∧ st2.autoReplies = st.autoReplies := by
  unfold saveEmail at h
  split at h
  · exact absurd h (by simp)
  · cases h
    exact ⟨rfl, rfl, rfl, rfl⟩

theorem grows_saveEmail_error {sf : Nat → Bool} {st e : ServerState} {mk : Nat → EmailRec}
    (h : saveEmail sf st mk = .error e) : Grows st e ∧ e.emails = st.emails := by
  unfold saveEmail at h
  split at h
  · cases h
    exact ⟨⟨rfl, rfl, rfl, List.prefix_refl _, List.prefix_refl _⟩, rfl⟩
  · exact absurd h (by simp)

/-- `ensureSpamLabel` returns a Spam label of the requested owner, present
in the resulting label list, and touches nothing but labels. -/
theorem ensureSpamLabel_spec (st : ServerState) (userId : Nat) :
    Grows st (ensureSpamLabel st userId).2 ∧
      (ensureSpamLabel st userId).2.emails = st.emails ∧
      (ensureSpamLabel st userId).2.nextEmailId = st.nextEmailId ∧
      (ensureSpamLabel st userId).2.saveOps = st.saveOps ∧
      (ensureSpamLabel st userId).1 ∈ (ensureSpamLabel st userId).2.labels ∧
      (ensureSpamLabel st userId).1.name = "Spam" ∧
      (ensureSpamLabel st userId).1.isSystemLabel = true ∧
      (ensureSpamLabel st userId).1.userId = userId := by
  unfold ensureSpamLabel
  cases h : st.labels.find? (fun l => l.userId == userId && l.name == "Spam" && l.isSystemLabel) with
  | some l =>
    have hmem := List.mem_of_find?_eq_some h
    have hpred := List.find?_some h
    simp only [Bool.and_eq_true, beq_iff_eq] at hpred
    exact ⟨Grows.refl st, rfl, rfl, rfl, hmem, hpred.1.2, hpred.2, hpred.1.1⟩
  | none =>
    refine ⟨⟨rfl, rfl, rfl, List.prefix_refl _, List.prefix_append _ _⟩, rfl, rfl, rfl, ?_, rfl, rfl, rfl⟩
    simp

/-- The Spam-label step touches nothing but labels, yields no label unless
the verdict is spam, and when it yields one it is a Spam label of the
resolved recipient, present in the resulting state. -/
theorem labelStage_spec (ctx : SendCtx) (st : ServerState) (a : String) :
    Grows st (labelStage ctx st a).2 ∧
      (labelStage ctx st a).2.emails = st.emails ∧
      (labelStage ctx st a).2.nextEmailId = st.nextEmailId ∧
      (labelStage ctx st a).2.saveOps = st.saveOps ∧
      (ctx.v = false → (labelStage ctx st a).1 = none) ∧
      (∀ l, (labelStage ctx st a).1 = some l →
        l ∈ (labelStage ctx st a).2.labels ∧ l.name = "Spam" ∧ l.isSystemLabel = true ∧
          ∃ u, ctx.rus.find? (fun u2 => u2.email == a) = some u ∧ l.userId = u.uid) ∧
      (ctx.v = true → (ctx.rus.find? (fun u => u.email == a)).isSome = true →
        (labelStage ctx st a).1.isSome = true) := by
  unfold labelStage
  cases hf : ctx.rus.find? (fun u => u.email == a) with
  | none =>
    refine ⟨Grows.refl st, rfl, rfl, rfl, fun _ => rfl, ?_, ?_⟩
    · intro l hl
      simp at hl
    · intro _ hs
      simp at hs
  | some u =>
    cases hv : ctx.v with
    | false =>
      simp only [hv, if_false]
      refine ⟨Grows.refl st, rfl, rfl, rfl, fun _ => rfl, ?_, ?_⟩
      · intro l hl
        simp at hl
      · intro h
        cases h
    | true =>
      simp only [hv, if_true]
      have hs := ensureSpamLabel_spec st u.uid
      refine ⟨hs.1, hs.2.1, hs.2.2.1, hs.2.2.2.1, ?_, ?_, fun _ _ => rfl⟩
      · intro h
        cases h
      · intro l hl
        simp only [Option.some.injEq] at hl
        subst hl
        exact ⟨hs.2.2.2.2.1, hs.2.2.2.2.2.1, hs.2.2.2.2.2.2.1, u, rfl, hs.2.2.2.2.2.2.2⟩

/-- Without a fault, the auto-reply tail succeeds, appends exactly the
auto-reply pair when the firing condition holds and nothing otherwise, and
touches neither labels, users, configs nor the classifier counter. -/
theorem arStage_spec (ctx : SendCtx) (doAR : Bool) (st : ServerState) (a : String) :
    ∃ st2, arStage noFault ctx doAR st a = .ok st2 ∧
      st2.emails = st.emails ++
        (if doAR && arFire ctx st.autoReplies a then
          [mkAutoReply ctx a (arMsg ctx st.autoReplies a) .sent st.nextEmailId,
           mkAutoReply ctx a (arMsg ctx st.autoReplies a) .inbox (st.nextEmailId + 1)]
         else []) ∧
      st2.labels = st.labels ∧ st2.users = st.users ∧
      st2.autoReplies = st.autoReplies ∧ st2.classifierCalls = st.classifierCalls := by
  cases doAR with
  | false => exact ⟨st, rfl, by simp, rfl, rfl, rfl, rfl⟩
  | true =>
    cases hv : ctx.v with
    | true =>
      refine ⟨st, ?_, ?_, rfl, rfl, rfl, rfl⟩
      · simp [arStage, hv]
      · simp [arFire, hv]
    | false =>
      cases hf : ctx.rus.find? (fun u => u.email == a) with
      | none =>
        refine ⟨st, ?_, ?_, rfl, rfl, rfl, rfl⟩
        · simp [arStage, hv, hf]
        · simp [arFire, arConfigured, hv, hf]
      | some u =>
        cases har : st.autoReplies.find? (fun r => r.userId == u.uid) with
        | none =>
          refine ⟨st, ?_, ?_, rfl, rfl, rfl, rfl⟩
          · simp [arStage, hv, hf, har]
          · simp [arFire, arConfigured, hv, hf, har]
        | some ar =>
          cases hen : ar.enabled && u.isEmailVerified with
          | false =>
            refine ⟨st, ?_, ?_, rfl, rfl, rfl, rfl⟩
            · simp [arStage, hv, hf, har, hen]
            · simp [arFire, arConfigured, hv, hf, har, hen]
          | true =>
            refine ⟨pushNotif { st with
                emails := st.emails ++
                  [mkAutoReply ctx a ar.message Folder.sent st.nextEmailId,
                   mkAutoReply ctx a ar.message Folder.inbox (st.nextEmailId + 1)],
                nextEmailId := st.nextEmailId + 1 + 1, saveOps := st.saveOps + 1 + 1 }
                ctx.senderEmail a ("Auto Reply: " ++ ctx.subject) ctx.sentAt none,
              ?_, ?_, ?_, ?_, ?_, ?_⟩
            · simp [arStage, arSend, hv, hf, har, hen, saveEmail, noFault, pushNotif]
            · simp [arFire, arConfigured, arMsg, hv, hf, har, hen, pushNotif]
            · simp [pushNotif]
            · simp [pushNotif]
            · simp [pushNotif]
            · simp [pushNotif]

/-- The state carried by either outcome: MongoDB does not roll back, so a
fault keeps whatever was persisted before it. -/
def outState : Except ServerState ServerState → ServerState
  | .ok s => s
  | .error s => s

theorem arSend_grows (sf : Nat → Bool) (ctx : SendCtx) (st : ServerState) (a msg : String) :
    Grows st (outState (arSend sf ctx st a msg)) := by
  unfold arSend
  cases hs1 : saveEmail sf st (mkAutoReply ctx a msg .sent) with
  | error e => exact (grows_saveEmail_error hs1).1
  | ok st4 =>
    show Grows st (outState (match saveEmail sf st4 (mkAutoReply ctx a msg .inbox) with
      | .error e => .error e
      | .ok st5 =>
        .ok (pushNotif st5 ctx.senderEmail a ("Auto Reply: " ++ ctx.subject) ctx.sentAt none)))
    cases hs2 : saveEmail sf st4 (mkAutoReply ctx a msg .inbox) with
    | error e => exact (grows_saveEmail_ok hs1).trans (grows_saveEmail_error hs2).1
    | ok st5 =>
      exact ((grows_saveEmail_ok hs1).trans (grows_saveEmail_ok hs2)).trans
        (grows_pushNotif st5 ctx.senderEmail a ("Auto Reply: " ++ ctx.subject) ctx.sentAt none)

theorem arStage_grows (sf : Nat → Bool) (ctx : SendCtx) (doAR : Bool) (st : ServerState)
    (a : String) : Grows st (outState (arStage sf ctx doAR st a)) := by
  unfold arStage
  cases doAR with
  | false => exact Grows.refl st
  | true =>
    cases hv : ctx.v with
    | true => exact Grows.refl st
    | false =>
      cases hf : ctx.rus.find? (fun u => u.email == a) with
      | none => exact Grows.refl st
      | some u =>
        show Grows st (outState (match st.autoReplies.find? (fun r => r.userId == u.uid) with
          | none => Except.ok st
          | some ar =>
            if ar.enabled && u.isEmailVerified then arSend sf ctx st a ar.message
            else Except.ok st))
        cases har : st.autoReplies.find? (fun r => r.userId == u.uid) with
        | none => exact Grows.refl st
        | some ar =>
          show Grows st (outState
            (if ar.enabled && u.isEmailVerified then arSend sf ctx st a ar.message
             else Except.ok st))
          cases hen : (ar.enabled && u.isEmailVerified) with
          | false => exact Grows.refl st
          | true => exact arSend_grows sf ctx st a ar.message

theorem deliverOne_grows (sf : Nat → Bool) (ctx : SendCtx) (doAR : Bool) (st : ServerState)
    (a : String) : Grows st (outState (deliverOne sf ctx doAR st a)) := by
  unfold deliverOne
  have hls := (labelStage_spec ctx st a).1
  cases hsv : saveEmail sf (labelStage ctx st a).2
      (mkCopy ctx a (match (labelStage ctx st a).1 with
        | some l => [l.lid]
        | none => [])) with
  | error e => exact hls.trans (grows_saveEmail_error hsv).1
  | ok st2 =>
    exact ((hls.trans (grows_saveEmail_ok hsv)).trans
      (grows_pushNotif st2 a ctx.senderEmail ctx.subject ctx.sentAt (some ctx.v))).trans
      (arStage_grows sf ctx doAR _ a)

theorem fanLoop_grows (sf : Nat → Bool) (ctx : SendCtx) (doAR : Bool) (addrs : List String)
    (st : ServerState) : Grows st (outState (fanLoop sf ctx doAR addrs st)) := by
  induction addrs generalizing st with
  | nil => exact Grows.refl st
  | cons a rest ih =>
    unfold fanLoop
    cases hdl : deliverOne sf ctx doAR st a with
    | error e =>
      have h1 := deliverOne_grows sf ctx doAR st a
      rw [hdl] at h1
      exact h1
    | ok st2 =>
      have h1 := deliverOne_grows sf ctx doAR st a
      rw [hdl] at h1
      exact h1.trans (ih st2)

/-- Without a fault, one loop iteration succeeds and appends exactly the
per-address copy followed by the auto-reply pair when the firing condition
holds; the copy's label list is empty unless the verdict is spam, in which
case it is the singleton of a Spam label owned by the resolved verified
recipient. -/
theorem deliverOne_spec (ctx : SendCtx) (doAR : Bool) (st : ServerState) (a : String) :
    ∃ st2 lb, deliverOne noFault ctx doAR st a = .ok st2 ∧
      st2.emails = st.emails ++ mkCopy ctx a lb st.nextEmailId ::
        (if doAR && arFire ctx st.autoReplies a then
          [mkAutoReply ctx a (arMsg ctx st.autoReplies a) .sent (st.nextEmailId + 1),
           mkAutoReply ctx a (arMsg ctx st.autoReplies a) .inbox (st.nextEmailId + 2)]
         else []) ∧
      Grows st st2 ∧
      (ctx.v = false → lb = []) ∧
      (ctx.v = true → (ctx.rus.find? (fun u => u.email == a)).isSome = true →
        (∀ u ∈ ctx.rus, u ∈ st.users ∧ u.isEmailVerified = true) →
        ∃ l, l ∈ st2.labels ∧ lb = [l.lid] ∧ l.name = "Spam" ∧ l.isSystemLabel = true ∧
          ∃ u, u ∈ st2.users ∧ u.isEmailVerified = true ∧ u.email = a ∧ l.userId = u.uid) := by
  have hls := labelStage_spec ctx st a
  unfold deliverOne
  cases hsv : saveEmail noFault (labelStage ctx st a).2
      (mkCopy ctx a (match (labelStage ctx st a).1 with
        | some l => [l.lid]
        | none => [])) with
  | error e =>
    rw [saveEmail_noFault_eq] at hsv
    cases hsv
  | ok stS =>
    have hse := saveEmail_ok_emails hsv
    have har := arStage_spec ctx doAR
      (pushNotif stS a ctx.senderEmail ctx.subject ctx.sentAt (some ctx.v)) a
    obtain ⟨st2, hareq, haremails, harlabels, harusers, harrep, harcls⟩ := har
    refine ⟨st2, (match (labelStage ctx st a).1 with
      | some l => [l.lid]
      | none => []), hareq, ?_, ?_, ?_, ?_⟩
    · rw [haremails]
      simp only [pushNotif]
      rw [hse.1, hls.2.1, hls.2.2.1]
      have hnext : stS.nextEmailId = st.nextEmailId + 1 := by
        rw [hse.2.1, hls.2.2.1]
      have hrep : stS.autoReplies = st.autoReplies := by
        rw [hse.2.2.2, hls.1.2.1]
      rw [hnext, hrep]
      simp
    · have g1 := hls.1
      have g2 := grows_saveEmail_ok hsv
      have g3 := grows_pushNotif stS a ctx.senderEmail ctx.subject ctx.sentAt (some ctx.v)
      have g4 : Grows (pushNotif stS a ctx.senderEmail ctx.subject ctx.sentAt (some ctx.v)) st2 :=
        ⟨harusers, harrep, harcls, by rw [haremails]; exact List.prefix_append _ _,
          by rw [harlabels]⟩
      exact ((g1.trans g2).trans g3).trans g4
    · intro hv
      rw [hls.2.2.2.2.1 hv]
    · intro hv hfind hrus
      have hsome := hls.2.2.2.2.2.2 hv hfind
      cases hl : (labelStage ctx st a).1 with
      | none => rw [hl] at hsome; cases hsome
      | some l =>
        obtain ⟨hmem, hname, hsys, u, hfu, huid⟩ := hls.2.2.2.2.2.1 l hl
        have hlmem : l ∈ st2.labels := by
          rw [harlabels]
          simp only [pushNotif]
          rw [hse.2.2.1]
          exact hmem
        have humem := hrus u (List.mem_of_find?_eq_some hfu)
        have huem : u.email = a := by
          have := List.find?_some hfu
          simpa using this
        have husr : u ∈ st2.users := by
          rw [harusers]
          simp only [pushNotif]
          rw [(grows_saveEmail_ok hsv).1, hls.1.1]
          exact humem.1
        exact ⟨l, hlmem, rfl, hname, hsys, u, husr, humem.2, huem, huid⟩

/-- Shape of a fan-out loop in which no auto-reply fires: it succeeds and
appends exactly one copy per address, in order, each copy a singleton-To
record sharing the verdict and the full cc/bcc metadata. -/
theorem fanLoop_shape (ctx : SendCtx) (doAR : Bool) (addrs : List String) (st : ServerState)
    (hfire : ∀ a ∈ addrs, doAR = false ∨ arFire ctx st.autoReplies a = false) :
    ∃ st2 added, fanLoop noFault ctx doAR addrs st = .ok st2 ∧
      st2.emails = st.emails ++ added ∧
      added.map (fun e => e.recipients) = addrs.map (fun a => [a]) ∧
      (∀ e ∈ added, e.sender = ctx.senderEmail ∧ e.cc = ctx.cc ∧ e.bcc = ctx.bcc ∧
        e.subject = ctx.subject ∧ e.body = ctx.body ∧ e.attachments = ctx.attachments ∧
        e.folder = (if ctx.v then Folder.spam else Folder.inbox) ∧ e.isSpam = ctx.v ∧
        e.sentAt = ctx.sentAt) ∧
      Grows st st2 := by
  induction addrs generalizing st with
  | nil =>
    refine ⟨st, [], rfl, by simp, rfl, ?_, Grows.refl st⟩
    intro e he
    cases he
  | cons a rest ih =>
    obtain ⟨st2, lb, hdl, hem, hg, hlb0, hlbl⟩ := deliverOne_spec ctx doAR st a
    have hfa := hfire a (by simp)
    have hif : (doAR && arFire ctx st.autoReplies a) = false := by
      rcases hfa with h | h
      · rw [h]
        rfl
      · rw [h]
        simp
    rw [hif] at hem
    simp only [Bool.false_eq_true, if_false] at hem
    have hfire2 : ∀ b ∈ rest, doAR = false ∨ arFire ctx st2.autoReplies b = false := by
      intro b hb
      rw [hg.2.1]
      exact hfire b (by simp [hb])
    obtain ⟨st3, added, hloop, hem3, hmap, hprops, hg3⟩ := ih st2 hfire2
    refine ⟨st3, mkCopy ctx a lb st.nextEmailId :: added, ?_, ?_, ?_, ?_, hg.trans hg3⟩
    · show (match deliverOne noFault ctx doAR st a with
        | Except.error e => (Except.error e : Except ServerState ServerState)
        | Except.ok s2 => fanLoop noFault ctx doAR rest s2) = Except.ok st3
      rw [hdl]
      exact hloop
    · rw [hem3, hem]
      simp
    · simp only [List.map_cons, hmap, mkCopy]
    · intro e he
      cases he with
      | head => exact ⟨rfl, rfl, rfl, rfl, rfl, rfl, rfl, rfl, rfl⟩
      | tail _ ht => exact hprops e ht

/-- What a per-address inbox-or-spam copy looks like: the original subject
and sender, the shared verdict, the verdict-resolved folder, the full
original cc and bcc lists, and a singleton To of one of the loop's
addresses. -/
def CopyProps (ctx : SendCtx) (addrs : List String) (e : EmailRec) : Prop :=
  e.subject = ctx.subject ∧ e.sender = ctx.senderEmail ∧ e.isSpam = ctx.v ∧
    e.folder = (if ctx.v then Folder.spam else Folder.inbox) ∧
    e.cc = ctx.cc ∧ e.bcc = ctx.bcc ∧ ∃ a ∈ addrs, e.recipients = [a]

/-- What one half of a generated auto-reply pair looks like: sent from the
To-address `a` back to the original sender, subject-prefixed, with the
configured text as body, never itself marked spam. -/
def ARMail (ctx : SendCtx) (ars : List AutoReplyRec) (a : String) (f : Folder)
    (e : EmailRec) : Prop :=
  e.sender = a ∧ e.folder = f ∧ e.subject = "Auto Reply: " ++ ctx.subject ∧
    e.body = arMsg ctx ars a ∧ e.recipients = [ctx.senderEmail] ∧ e.isSpam = false ∧
    e.labels = []

/-- An auto-reply artifact of the loop: the verdict was not spam, and the
record is one half of the pair for some loop address whose firing
condition holds. -/
def ARProps (ctx : SendCtx) (ars : List AutoReplyRec) (addrs : List String)
    (e : EmailRec) : Prop :=
  ctx.v = false ∧ ∃ a ∈ addrs, arFire ctx ars a = true ∧
    (ARMail ctx ars a Folder.sent e ∨ ARMail ctx ars a Folder.inbox e)

/-- The spam invariant of one stored record, relative to a state: marked
spam exactly when living in the spam folder, and carrying exactly the
recipient's system Spam label when marked spam (no labels otherwise). -/
def SpamInv (st2 : ServerState) (e : EmailRec) : Prop :=
  (e.isSpam = true ↔ e.folder = Folder.spam) ∧
    (e.isSpam = false → e.labels = []) ∧
    (e.isSpam = true → ∃ l, l ∈ st2.labels ∧ e.labels = [l.lid] ∧ l.name = "Spam" ∧
      l.isSystemLabel = true ∧ ∃ u, u ∈ st2.users ∧ u.isEmailVerified = true ∧
        e.recipients = [u.email] ∧ l.userId = u.uid)

theorem SpamInv.mono {st2 st3 : ServerState} {e : EmailRec} (h : SpamInv st2 e)
    (hg : Grows st2 st3) : SpamInv st3 e := by
  refine ⟨h.1, h.2.1, ?_⟩
  intro hsp
  obtain ⟨l, hl, hel, hn, hs, u, hu, hv, hr, hid⟩ := h.2.2 hsp
  exact ⟨l, hg.2.2.2.2.subset hl, hel, hn, hs, u, by rw [hg.1]; exact hu, hv, hr, hid⟩

theorem arFire_v_false {ctx : SendCtx} {ars : List AutoReplyRec} {a : String}
    (h : arFire ctx ars a = true) : ctx.v = false := by
  unfold arFire at h
  rcases Bool.and_eq_true _ _ |>.mp h with ⟨h1, _⟩
  simpa using h1

/-- A `noFault` fan-out loop, over addresses that all resolve in the query
result: it succeeds, appends one copy per address plus one auto-reply pair
per firing To-address, every appended record satisfies the spam invariant,
every appended record is a per-address copy or an auto-reply artifact, and
every firing To-address gets both halves of its pair. -/
theorem fanLoop_full (ctx : SendCtx) (doAR : Bool) (addrs : List String) (st : ServerState)
    (hrus : ∀ u ∈ ctx.rus, u ∈ st.users ∧ u.isEmailVerified = true)
    (hfind : ∀ a ∈ addrs, (ctx.rus.find? (fun u => u.email == a)).isSome = true) :
    ∃ st2 added, fanLoop noFault ctx doAR addrs st = .ok st2 ∧
      st2.emails = st.emails ++ added ∧
      added.length = addrs.length +
        2 * (addrs.filter (fun a => doAR && arFire ctx st.autoReplies a)).length ∧
      Grows st st2 ∧
      (∀ e ∈ added, SpamInv st2 e) ∧
      (∀ e ∈ added, CopyProps ctx addrs e ∨
        (doAR = true ∧ ARProps ctx st.autoReplies addrs e)) ∧
      (∀ a ∈ addrs, (doAR && arFire ctx st.autoReplies a) = true →
        (∃ e ∈ added, ARMail ctx st.autoReplies a Folder.sent e) ∧
        (∃ e ∈ added, ARMail ctx st.autoReplies a Folder.inbox e)) := by
  induction addrs generalizing st with
  | nil =>
    refine ⟨st, [], rfl, by simp, by simp, Grows.refl st, ?_, ?_, ?_⟩
    · intro e he
      cases he
    · intro e he
      cases he
    · intro a ha
      cases ha
  | cons a rest ih =>
    obtain ⟨st2, lb, hdl, hem, hg, hlb0, hlbl⟩ := deliverOne_spec ctx doAR st a
    have hrus2 : ∀ u ∈ ctx.rus, u ∈ st2.users ∧ u.isEmailVerified = true := by
      intro u hu
      rw [hg.1]
      exact hrus u hu
    have hfind2 : ∀ b ∈ rest, (ctx.rus.find? (fun u => u.email == b)).isSome = true :=
      fun b hb => hfind b (by simp [hb])
    obtain ⟨st3, added2, hloop, hem3, hlen2, hg3, hinv2, hcar2, hex2⟩ := ih st2 hrus2 hfind2
    rw [hg.2.1] at hlen2 hcar2 hex2
    set copyE := mkCopy ctx a lb st.nextEmailId with hcopy
    set arL := (if doAR && arFire ctx st.autoReplies a then
      [mkAutoReply ctx a (arMsg ctx st.autoReplies a) .sent (st.nextEmailId + 1),
       mkAutoReply ctx a (arMsg ctx st.autoReplies a) .inbox (st.nextEmailId + 2)]
     else []) with harL
    refine ⟨st3, copyE :: (arL ++ added2), ?_, ?_, ?_, hg.trans hg3, ?_, ?_, ?_⟩
    · show (match deliverOne noFault ctx doAR st a with
        | Except.error e => (Except.error e : Except ServerState ServerState)
        | Except.ok s2 => fanLoop noFault ctx doAR rest s2) = Except.ok st3
      rw [hdl]
      exact hloop
    · rw [hem3, hem]
      simp
    · have harlen : arL.length = if (doAR && arFire ctx st.autoReplies a) = true then 2 else 0 := by
        rw [harL]
        cases hfa : (doAR && arFire ctx st.autoReplies a) <;> simp
      simp only [List.length_cons, List.length_append, harlen, hlen2, List.filter_cons]
      cases hfa : (doAR && arFire ctx st.autoReplies a) <;> simp [hfa] <;> omega
    · -- spam invariant for every appended record
      intro e he
      rcases List.mem_cons.mp he with rfl | he2
      · -- the copy itself
        have hinvc : SpamInv st2 copyE := by
          cases hv : ctx.v with
          | false =>
            refine ⟨?_, ?_, ?_⟩
            · rw [hcopy]
              simp [mkCopy, hv]
            · intro _
              rw [hcopy, hlb0 hv]
              simp [mkCopy]
            · intro hsp
              rw [hcopy] at hsp
              simp [mkCopy, hv] at hsp
          | true =>
            obtain ⟨l, hlmem, hlb, hn, hs, u, hu, huv, hue, hid⟩ :=
              hlbl hv (hfind a (by simp)) hrus
            refine ⟨?_, ?_, ?_⟩
            · rw [hcopy]
              simp [mkCopy, hv]
            · intro hsp
              rw [hcopy] at hsp
              simp [mkCopy, hv] at hsp
            · intro _
              exact ⟨l, hlmem, by rw [hcopy, hlb]; simp [mkCopy], hn, hs, u, hu, huv,
                by rw [hcopy, hue]; simp [mkCopy], hid⟩
        exact hinvc.mono hg3
      rcases List.mem_append.mp he2 with heAR | he3
      · -- an auto-reply artifact
        have hinva : SpamInv st2 e := by
          rw [harL] at heAR
          rcases hfa : (doAR && arFire ctx st.autoReplies a) with _ | _
          · rw [hfa] at heAR
            simp at heAR
          · rw [hfa] at heAR
            simp only [if_true] at heAR
            have hf : e.folder = Folder.sent ∨ e.folder = Folder.inbox := by
              rcases List.mem_cons.mp heAR with rfl | h2
              · exact Or.inl rfl
              · rcases List.mem_cons.mp h2 with rfl | h3
                · exact Or.inr rfl
                · cases h3
            have hsp : e.isSpam = false := by
              rcases List.mem_cons.mp heAR with rfl | h2
              · rfl
              · rcases List.mem_cons.mp h2 with rfl | h3
                · rfl
                · cases h3
            have hlb : e.labels = [] := by
              rcases List.mem_cons.mp heAR with rfl | h2
              · rfl
              · rcases List.mem_cons.mp h2 with rfl | h3
                · rfl
                · cases h3
            refine ⟨?_, fun _ => hlb, ?_⟩
            · rw [hsp]
              constructor
              · intro h
                cases h
              · intro h
                rcases hf with hf1 | hf1 <;> rw [hf1] at h <;> cases h
            · intro h
              rw [hsp] at h
              cases h
        exact hinva.mono hg3
      · exact hinv2 e he3
    · -- copy-or-artifact classification
      intro e he
      rcases List.mem_cons.mp he with rfl | he2
      · left
        refine ⟨rfl, rfl, rfl, rfl, rfl, rfl, a, by simp, rfl⟩
      rcases List.mem_append.mp he2 with heAR | he3
      · right
        rw [harL] at heAR
        rcases hfa : (doAR && arFire ctx st.autoReplies a) with _ | _
        · rw [hfa] at heAR
          simp at heAR
        · rw [hfa] at heAR
          simp only [if_true] at heAR
          have hfire : arFire ctx st.autoReplies a = true := (Bool.and_eq_true _ _ |>.mp hfa).2
          refine ⟨(Bool.and_eq_true _ _ |>.mp hfa).1, arFire_v_false hfire, a, by simp, hfire, ?_⟩
          rcases List.mem_cons.mp heAR with rfl | h2
          · exact Or.inl ⟨rfl, rfl, rfl, rfl, rfl, rfl, rfl⟩
          · rcases List.mem_cons.mp h2 with rfl | h3
            · exact Or.inr ⟨rfl, rfl, rfl, rfl, rfl, rfl, rfl⟩
            · cases h3
      · rcases hcar2 e he3 with hc | ha2
        · left
          obtain ⟨h1, h2, h3, h4, h5, h6, b, hb, h7⟩ := hc
          exact ⟨h1, h2, h3, h4, h5, h6, b, by simp [hb], h7⟩
        · right
          obtain ⟨hd, h1, b, hb, h2, h3⟩ := ha2
          exact ⟨hd, h1, b, by simp [hb], h2, h3⟩
    · -- both halves exist for every firing To-address
      intro b hb hbf
      rcases List.mem_cons.mp hb with rfl | hb2
      · rw [harL]
        rw [hbf]
        simp only [if_true]
        constructor
        · exact ⟨mkAutoReply ctx b (arMsg ctx st.autoReplies b) .sent (st.nextEmailId + 1),
            by simp, rfl, rfl, rfl, rfl, rfl, rfl, rfl⟩
        · exact ⟨mkAutoReply ctx b (arMsg ctx st.autoReplies b) .inbox (st.nextEmailId + 2),
            by simp, rfl, rfl, rfl, rfl, rfl, rfl, rfl⟩
      · obtain ⟨⟨e1, he1, hm1⟩, ⟨e2, he2, hm2⟩⟩ := hex2 b hb2 hbf
        exact ⟨⟨e1, by simp [he1], hm1⟩, ⟨e2, by simp [he2], hm2⟩⟩

/-- The state after a send's successful sent-copy save and single
classifier invocation, before the fan-out loops. -/
def afterSent (st0 : ServerState) (senderEmail : String) (recipients cc bcc : List String)
    (subject body : String) (attachments : List Attachment) (now : Nat) : ServerState :=
  { st0 with
    saveOps := st0.saveOps + 1,
    emails := st0.emails ++
      [mkSent senderEmail recipients cc bcc subject body attachments now st0.nextEmailId],
    nextEmailId := st0.nextEmailId + 1,
    classifierCalls := st0.classifierCalls + 1 }

theorem filter_notBlank_eq {l : List String} (h : ∀ a ∈ l, notBlank a = true) :
    l.filter notBlank = l :=
  List.filter_eq_self.mpr h


theorem fanLoop_noFault_ok (ctx : SendCtx) (doAR : Bool) (addrs : List String)
    (st : ServerState) : ∃ st2, fanLoop noFault ctx doAR addrs st = .ok st2 := by
  induction addrs generalizing st with
  | nil => exact ⟨st, rfl⟩
  | cons a rest ih =>
    obtain ⟨st2, lb, hdl, _, _, _, _⟩ := deliverOne_spec ctx doAR st a
    obtain ⟨st3, h3⟩ := ih st2
    refine ⟨st3, ?_⟩
    show (match deliverOne noFault ctx doAR st a with
      | Except.error e => (Except.error e : Except ServerState ServerState)
      | Except.ok s2 => fanLoop noFault ctx doAR rest s2) = Except.ok st3
    rw [hdl]
    exact h3

theorem sendEmailF_vErr_empty (sf : Nat → Bool) (st0 : ServerState) (senderEmail : String)
    (recipients0 cc0 bcc0 : List String) (subject body : String)
    (attachments : List Attachment) (now : Nat)
    (hemp : (recipients0.filter notBlank).isEmpty = true) :
    sendEmailF sf st0 senderEmail recipients0 cc0 bcc0 subject body attachments now =
      .vErr "At least one valid recipient is required" st0 := by
  unfold sendEmailF
  rw [hemp]
  rfl

theorem sendEmailF_vErr_recipients (sf : Nat → Bool) (st0 : ServerState)
    (senderEmail : String) (recipients0 cc0 bcc0 : List String) (subject body : String)
    (attachments : List Attachment) (now : Nat)
    (hemp : (recipients0.filter notBlank).isEmpty = false)
    (hva : validAllR st0 recipients0 cc0 bcc0 = false) :
    sendEmailF sf st0 senderEmail recipients0 cc0 bcc0 subject body attachments now =
      .vErr "Some recipients not found or unverified" st0 := by
  unfold sendEmailF
  rw [hemp, hva]
  rfl

theorem sendEmailF_vErr_cc (sf : Nat → Bool) (st0 : ServerState)
    (senderEmail : String) (recipients0 cc0 bcc0 : List String) (subject body : String)
    (attachments : List Attachment) (now : Nat)
    (hemp : (recipients0.filter notBlank).isEmpty = false)
    (hva : validAllR st0 recipients0 cc0 bcc0 = true)
    (hvc : validAllC st0 recipients0 cc0 bcc0 = false) :
    sendEmailF sf st0 senderEmail recipients0 cc0 bcc0 subject body attachments now =
      .vErr "Some CC recipients not found or unverified" st0 := by
  unfold sendEmailF
  rw [hemp, hva, hvc]
  rfl

theorem sendEmailF_vErr_bcc (sf : Nat → Bool) (st0 : ServerState)
    (senderEmail : String) (recipients0 cc0 bcc0 : List String) (subject body : String)
    (attachments : List Attachment) (now : Nat)
    (hemp : (recipients0.filter notBlank).isEmpty = false)
    (hva : validAllR st0 recipients0 cc0 bcc0 = true)
    (hvc : validAllC st0 recipients0 cc0 bcc0 = true)
    (hvb : validAllB st0 recipients0 cc0 bcc0 = false) :
    sendEmailF sf st0 senderEmail recipients0 cc0 bcc0 subject body attachments now =
      .vErr "Some BCC recipients not found or unverified" st0 := by
  unfold sendEmailF
  rw [hemp, hva, hvc, hvb]
  rfl

/-- Running a validated no-fault send: the three loops succeed in sequence
from the after-sent state, and the request reports success with the third
loop's final state. -/
theorem sendEmailF_run (st0 : ServerState) (senderEmail : String)
    (recipients0 cc0 bcc0 : List String) (subject body : String)
    (attachments : List Attachment) (now : Nat)
    (hemp : (recipients0.filter notBlank).isEmpty = false)
    (hva : validAllR st0 recipients0 cc0 bcc0 = true)
    (hvc : validAllC st0 recipients0 cc0 bcc0 = true)
    (hvb : validAllB st0 recipients0 cc0 bcc0 = true) :
    ∃ st3 st4 st5,
      fanLoop noFault (sendCtxOf st0 senderEmail (recipients0.filter notBlank)
          (cc0.filter notBlank) (bcc0.filter notBlank) subject body attachments now)
        true (recipients0.filter notBlank)
        (afterSent st0 senderEmail (recipients0.filter notBlank) (cc0.filter notBlank)
          (bcc0.filter notBlank) subject body attachments now) = .ok st3 ∧
      fanLoop noFault (sendCtxOf st0 senderEmail (recipients0.filter notBlank)
          (cc0.filter notBlank) (bcc0.filter notBlank) subject body attachments now)
        false (cc0.filter notBlank) st3 = .ok st4 ∧
      fanLoop noFault (sendCtxOf st0 senderEmail (recipients0.filter notBlank)
          (cc0.filter notBlank) (bcc0.filter notBlank) subject body attachments now)
        false (bcc0.filter notBlank) st4 = .ok st5 ∧
      sendEmailF noFault st0 senderEmail recipients0 cc0 bcc0 subject body attachments now =
        .ok st5 := by
  obtain ⟨st3, h3⟩ := fanLoop_noFault_ok
    (sendCtxOf st0 senderEmail (recipients0.filter notBlank) (cc0.filter notBlank)
      (bcc0.filter notBlank) subject body attachments now) true (recipients0.filter notBlank)
    (afterSent st0 senderEmail (recipients0.filter notBlank) (cc0.filter notBlank)
      (bcc0.filter notBlank) subject body attachments now)
  obtain ⟨st4, h4⟩ := fanLoop_noFault_ok
    (sendCtxOf st0 senderEmail (recipients0.filter notBlank) (cc0.filter notBlank)
      (bcc0.filter notBlank) subject body attachments now) false (cc0.filter notBlank) st3
  obtain ⟨st5, h5⟩ := fanLoop_noFault_ok
    (sendCtxOf st0 senderEmail (recipients0.filter notBlank) (cc0.filter notBlank)
      (bcc0.filter notBlank) subject body attachments now) false (bcc0.filter notBlank) st4
  refine ⟨st3, st4, st5, h3, h4, h5, ?_⟩
  unfold sendEmailF
  rw [hemp, hva, hvc, hvb, saveEmail_noFault_eq]
  show (match fanLoop noFault (sendCtxOf st0 senderEmail (recipients0.filter notBlank)
      (cc0.filter notBlank) (bcc0.filter notBlank) subject body attachments now)
      true (recipients0.filter notBlank)
      (afterSent st0 senderEmail (recipients0.filter notBlank) (cc0.filter notBlank)
        (bcc0.filter notBlank) subject body attachments now) with
    | Except.error e => SendOut.sErr e
    | Except.ok st3x =>
      match fanLoop noFault (sendCtxOf st0 senderEmail (recipients0.filter notBlank)
          (cc0.filter notBlank) (bcc0.filter notBlank) subject body attachments now)
          false (cc0.filter notBlank) st3x with
      | Except.error e => SendOut.sErr e
      | Except.ok st4x =>
        match fanLoop noFault (sendCtxOf st0 senderEmail (recipients0.filter notBlank)
            (cc0.filter notBlank) (bcc0.filter notBlank) subject body attachments now)
            false (bcc0.filter notBlank) st4x with
        | Except.error e => SendOut.sErr e
        | Except.ok st5x => SendOut.ok st5x) = SendOut.ok st5
  rw [h3]
  show (match fanLoop noFault (sendCtxOf st0 senderEmail (recipients0.filter notBlank)
      (cc0.filter notBlank) (bcc0.filter notBlank) subject body attachments now)
      false (cc0.filter notBlank) st3 with
    | Except.error e => SendOut.sErr e
    | Except.ok st4x =>
      match fanLoop noFault (sendCtxOf st0 senderEmail (recipients0.filter notBlank)
          (cc0.filter notBlank) (bcc0.filter notBlank) subject body attachments now)
          false (bcc0.filter notBlank) st4x with
      | Except.error e => SendOut.sErr e
      | Except.ok st5x => SendOut.ok st5x) = SendOut.ok st5
  rw [h4]
  show (match fanLoop noFault (sendCtxOf st0 senderEmail (recipients0.filter notBlank)
      (cc0.filter notBlank) (bcc0.filter notBlank) subject body attachments now)
      false (bcc0.filter notBlank) st4 with
    | Except.error e => SendOut.sErr e
    | Except.ok st5x => SendOut.ok st5x) = SendOut.ok st5
  rw [h5]

/-- A successful no-fault send implies the validation checks passed and
the result is the composition of the sent save, one classification and the
three loops. -/
theorem sendEmailF_ok_elim {st0 : ServerState} {senderEmail : String}
    {recipients0 cc0 bcc0 : List String} {subject body : String}
    {attachments : List Attachment} {now : Nat}
    (hok : (sendEmailF noFault st0 senderEmail recipients0 cc0 bcc0 subject body
      attachments now).isOk = true) :
    (recipients0.filter notBlank).isEmpty = false ∧
    validAllR st0 recipients0 cc0 bcc0 = true ∧
    validAllC st0 recipients0 cc0 bcc0 = true ∧
    validAllB st0 recipients0 cc0 bcc0 = true := by
  have hemp : (recipients0.filter notBlank).isEmpty = false := by
    cases h : (recipients0.filter notBlank).isEmpty with
    | false => rfl
    | true =>
      rw [sendEmailF_vErr_empty noFault st0 senderEmail recipients0 cc0 bcc0 subject body
        attachments now h] at hok
      simp [SendOut.isOk] at hok
  have hva : validAllR st0 recipients0 cc0 bcc0 = true := by
    cases h : validAllR st0 recipients0 cc0 bcc0 with
    | true => rfl
    | false =>
      rw [sendEmailF_vErr_recipients noFault st0 senderEmail recipients0 cc0 bcc0 subject body
        attachments now hemp h] at hok
      simp [SendOut.isOk] at hok
  have hvc : validAllC st0 recipients0 cc0 bcc0 = true := by
    cases h : validAllC st0 recipients0 cc0 bcc0 with
    | true => rfl
    | false =>
      rw [sendEmailF_vErr_cc noFault st0 senderEmail recipients0 cc0 bcc0 subject body
        attachments now hemp hva h] at hok
      simp [SendOut.isOk] at hok
  have hvb : validAllB st0 recipients0 cc0 bcc0 = true := by
    cases h : validAllB st0 recipients0 cc0 bcc0 with
    | true => rfl
    | false =>
      rw [sendEmailF_vErr_bcc noFault st0 senderEmail recipients0 cc0 bcc0 subject body
        attachments now hemp hva hvc h] at hok
      simp [SendOut.isOk] at hok
  exact ⟨hemp, hva, hvc, hvb⟩

theorem sendCtxOf_rus (st0 : ServerState) (s : String) (r c b : List String)
    (subj bod : String) (atts : List Attachment) (now : Nat) :
    (sendCtxOf st0 s r c b subj bod atts now).rus = sendRus st0 r c b := rfl

theorem sendCtxOf_v (st0 : ServerState) (s : String) (r c b : List String)
    (subj bod : String) (atts : List Attachment) (now : Nat) :
    (sendCtxOf st0 s r c b subj bod atts now).v =
      sendVerdict st0 s r c b subj bod atts now := rfl

theorem afterSent_autoReplies (st0 : ServerState) (s : String) (r c b : List String)
    (subj bod : String) (atts : List Attachment) (now : Nat) :
    (afterSent st0 s r c b subj bod atts now).autoReplies = st0.autoReplies := rfl

theorem afterSent_emails (st0 : ServerState) (s : String) (r c b : List String)
    (subj bod : String) (atts : List Attachment) (now : Nat) :
    (afterSent st0 s r c b subj bod atts now).emails =
      st0.emails ++ [mkSent s r c b subj bod atts now st0.nextEmailId] := rfl

theorem afterSent_classifier (st0 : ServerState) (s : String) (r c b : List String)
    (subj bod : String) (atts : List Attachment) (now : Nat) :
    (afterSent st0 s r c b subj bod atts now).classifierCalls =
      st0.classifierCalls + 1 := rfl

theorem afterSent_users (st0 : ServerState) (s : String) (r c b : List String)
    (subj bod : String) (atts : List Attachment) (now : Nat) :
    (afterSent st0 s r c b subj bod atts now).users = st0.users := rfl

theorem sendRus_sub (st0 : ServerState) (r c b : List String) :
    ∀ u ∈ sendRus st0 r c b, u ∈ st0.users ∧ u.isEmailVerified = true := by
  intro u hu
  rw [sendRus, List.mem_filter] at hu
  rcases hu with ⟨hm, hp⟩
  rcases Bool.and_eq_true _ _ |>.mp hp with ⟨_, hv⟩
  exact ⟨hm, hv⟩

theorem any_imp_find {p : UserRec → Bool} {l : List UserRec} (h : l.any p = true) :
    (l.find? p).isSome = true := by
  rw [List.find?_isSome]
  exact List.any_eq_true.mp h

/-- From a passed To-validation: every filtered To address resolves in the
query result. -/
theorem validAll_find {st0 : ServerState} {r c b : List String} {addrs : List String}
    (hall : (addrs.all fun e => (sendRus st0 r c b).any fun u => u.email == e) = true) :
    ∀ a ∈ addrs, ((sendRus st0 r c b).find? fun u => u.email == a).isSome = true := by
  intro a ha
  exact any_imp_find (List.all_eq_true.mp hall a ha)

theorem validAllR_eq {st0 : ServerState} {r c b : List String}
    (hr : ∀ a ∈ r, notBlank a = true) (hc : ∀ a ∈ c, notBlank a = true)
    (hb : ∀ a ∈ b, notBlank a = true) :
    validAllR st0 r c b = (r.all fun e => (sendRus st0 r c b).any fun u => u.email == e) := by
  unfold validAllR
  rw [filter_notBlank_eq hr, filter_notBlank_eq hc, filter_notBlank_eq hb]

theorem validAllC_eq {st0 : ServerState} {r c b : List String}
    (hr : ∀ a ∈ r, notBlank a = true) (hc : ∀ a ∈ c, notBlank a = true)
    (hb : ∀ a ∈ b, notBlank a = true) :
    validAllC st0 r c b = (c.all fun e => (sendRus st0 r c b).any fun u => u.email == e) := by
  unfold validAllC
  rw [filter_notBlank_eq hr, filter_notBlank_eq hc, filter_notBlank_eq hb]

theorem validAllB_eq {st0 : ServerState} {r c b : List String}
    (hr : ∀ a ∈ r, notBlank a = true) (hc : ∀ a ∈ c, notBlank a = true)
    (hb : ∀ a ∈ b, notBlank a = true) :
    validAllB st0 r c b = (b.all fun e => (sendRus st0 r c b).any fun u => u.email == e) := by
  unfold validAllB
  rw [filter_notBlank_eq hr, filter_notBlank_eq hc, filter_notBlank_eq hb]

/-! ## Claim theorems -/

/-- Claim C2: a successful send to pairwise-distinct To, cc and bcc
addresses, none of which has auto-reply enabled, persists exactly one
sent-folder copy for the sender plus exactly one inbox-or-spam copy per
address (N + M + K in total, one per address in order), invokes the
classifier exactly once, and stamps the one shared verdict on every
per-address copy (folder spam with isSpam true when the verdict is true,
folder inbox with isSpam false otherwise). -/
theorem send_fanout_counts
    (st0 : ServerState) (senderEmail : String) (recipients cc bcc : List String)
    (subject body : String) (attachments : List Attachment) (now : Nat)
    (hr : ∀ a ∈ recipients, notBlank a = true)
    (hc : ∀ a ∈ cc, notBlank a = true)
    (hb : ∀ a ∈ bcc, notBlank a = true)
    (hdist : (recipients ++ cc ++ bcc).Nodup)
    (hnoar : ∀ a ∈ recipients,
      arConfigured (sendRus st0 recipients cc bcc) st0.autoReplies a = false)
    (hok : (sendEmailF noFault st0 senderEmail recipients cc bcc subject body attachments
      now).isOk = true) :
    ∃ rest,
      (sendEmailF noFault st0 senderEmail recipients cc bcc subject body attachments
        now).stOf.emails =
        st0.emails ++ mkSent senderEmail recipients cc bcc subject body attachments now
          st0.nextEmailId :: rest ∧
      rest.map (fun e => e.recipients) = (recipients ++ cc ++ bcc).map (fun a => [a]) ∧
      rest.length = recipients.length + cc.length + bcc.length ∧
      (∀ e ∈ rest,
        e.isSpam = sendVerdict st0 senderEmail recipients cc bcc subject body attachments now ∧
        e.folder = (if sendVerdict st0 senderEmail recipients cc bcc subject body attachments
          now then Folder.spam else Folder.inbox) ∧
        e.folder ≠ Folder.sent) ∧
      (sendEmailF noFault st0 senderEmail recipients cc bcc subject body attachments
        now).stOf.classifierCalls = st0.classifierCalls + 1 := by
  obtain ⟨hemp, hva, hvc, hvb⟩ := sendEmailF_ok_elim hok
  obtain ⟨st3, st4, st5, h3, h4, h5, hfin⟩ :=
    sendEmailF_run st0 senderEmail recipients cc bcc subject body attachments now
      hemp hva hvc hvb
  rw [filter_notBlank_eq hr, filter_notBlank_eq hc, filter_notBlank_eq hb] at h3 h4 h5
  have hfire1 : ∀ a ∈ recipients, (true : Bool) = false ∨
      arFire (sendCtxOf st0 senderEmail recipients cc bcc subject body attachments now)
        (afterSent st0 senderEmail recipients cc bcc subject body attachments
          now).autoReplies a = false := by
    intro a ha
    right
    rw [afterSent_autoReplies, arFire, sendCtxOf_rus, hnoar a ha]
    simp
  obtain ⟨st3x, added1, h3x, hem1, hmap1, hprops1, hg1⟩ :=
    fanLoop_shape (sendCtxOf st0 senderEmail recipients cc bcc subject body attachments now)
      true recipients
      (afterSent st0 senderEmail recipients cc bcc subject body attachments now) hfire1
  rw [h3] at h3x
  cases h3x
  obtain ⟨st4x, added2, h4x, hem2, hmap2, hprops2, hg2⟩ :=
    fanLoop_shape (sendCtxOf st0 senderEmail recipients cc bcc subject body attachments now)
      false cc st3 (fun a _ => Or.inl rfl)
  rw [h4] at h4x
  cases h4x
  obtain ⟨st5x, added3, h5x, hem3, hmap3, hprops3, hg3⟩ :=
    fanLoop_shape (sendCtxOf st0 senderEmail recipients cc bcc subject body attachments now)
      false bcc st4 (fun a _ => Or.inl rfl)
  rw [h5] at h5x
  cases h5x
  have hstOf : (sendEmailF noFault st0 senderEmail recipients cc bcc subject body attachments
      now).stOf = st5 := by
    rw [hfin]
    rfl
  refine ⟨added1 ++ added2 ++ added3, ?_, ?_, ?_, ?_, ?_⟩
  · rw [hstOf, hem3, hem2, hem1, afterSent_emails]
    simp
  · rw [List.map_append, List.map_append, hmap1, hmap2, hmap3, List.map_append,
      List.map_append]
  · have l1 := congrArg List.length hmap1
    have l2 := congrArg List.length hmap2
    have l3 := congrArg List.length hmap3
    simp only [List.length_map] at l1 l2 l3
    simp only [List.length_append, l1, l2, l3]
  · intro e he
    have key : ∀ e1 : EmailRec,
        e1.isSpam = (sendCtxOf st0 senderEmail recipients cc bcc subject body attachments
          now).v →
        e1.folder = (if (sendCtxOf st0 senderEmail recipients cc bcc subject body attachments
          now).v then Folder.spam else Folder.inbox) →
        e1.isSpam = sendVerdict st0 senderEmail recipients cc bcc subject body attachments
          now ∧
        e1.folder = (if sendVerdict st0 senderEmail recipients cc bcc subject body attachments
          now then Folder.spam else Folder.inbox) ∧ e1.folder ≠ Folder.sent := by
      intro e1 hs hf
      refine ⟨hs, hf, ?_⟩
      rw [hf, sendCtxOf_v]
      cases sendVerdict st0 senderEmail recipients cc bcc subject body attachments now <;> simp
    rcases List.mem_append.mp he with he12 | he3
    · rcases List.mem_append.mp he12 with he1 | he2
      · exact key e (hprops1 e he1).2.2.2.2.2.2.2.1 (hprops1 e he1).2.2.2.2.2.2.1
      · exact key e (hprops2 e he2).2.2.2.2.2.2.2.1 (hprops2 e he2).2.2.2.2.2.2.1
    · exact key e (hprops3 e he3).2.2.2.2.2.2.2.1 (hprops3 e he3).2.2.2.2.2.2.1
  · rw [hstOf, hg3.2.2.1, hg2.2.2.1, hg1.2.2.1, afterSent_classifier]

/-- Concrete verified users for witness states. -/
def wUsers : List UserRec :=
  [⟨0, "s@x", true⟩, ⟨1, "a@x", true⟩, ⟨2, "b@x", true⟩, ⟨3, "c@x", true⟩]

/-- A fresh concrete server state with four verified users. -/
def wSt : ServerState := ⟨wUsers, [], [], [], [], 0, 0, 0, 0⟩

/-- Witness for C2 at a concrete send: one To, one cc, no bcc, no
auto-reply configs; the hypotheses hold by computation and the conclusion
follows from the theorem. -/
theorem send_fanout_counts_witness :
    (∀ a ∈ ["a@x"], notBlank a = true) ∧
    (∀ a ∈ ["b@x"], notBlank a = true) ∧
    (∀ a ∈ ([] : List String), notBlank a = true) ∧
    ((["a@x"] ++ ["b@x"] ++ []) : List String).Nodup ∧
    (∀ a ∈ ["a@x"],
      arConfigured (sendRus wSt ["a@x"] ["b@x"] []) wSt.autoReplies a = false) ∧
    ((sendEmailF noFault wSt "s@x" ["a@x"] ["b@x"] [] "hi" "hello" [] 0).isOk = true) ∧
    (∃ rest,
      (sendEmailF noFault wSt "s@x" ["a@x"] ["b@x"] [] "hi" "hello" [] 0).stOf.emails =
        wSt.emails ++ mkSent "s@x" ["a@x"] ["b@x"] [] "hi" "hello" [] 0
          wSt.nextEmailId :: rest ∧
      rest.map (fun e => e.recipients) = ((["a@x"] ++ ["b@x"] ++ []) : List String).map
        (fun a => [a]) ∧
      rest.length = (["a@x"] : List String).length + (["b@x"] : List String).length +
        ([] : List String).length ∧
      (∀ e ∈ rest,
        e.isSpam = sendVerdict wSt "s@x" ["a@x"] ["b@x"] [] "hi" "hello" [] 0 ∧
        e.folder = (if sendVerdict wSt "s@x" ["a@x"] ["b@x"] [] "hi" "hello" [] 0
          then Folder.spam else Folder.inbox) ∧
        e.folder ≠ Folder.sent) ∧
      (sendEmailF noFault wSt "s@x" ["a@x"] ["b@x"] [] "hi" "hello" [] 0).stOf.classifierCalls =
        wSt.classifierCalls + 1) := by
  refine ⟨by decide, by decide, by decide, by decide, by decide, by decide, ?_⟩
  exact send_fanout_counts wSt "s@x" ["a@x"] ["b@x"] [] "hi" "hello" [] 0
    (by decide) (by decide) (by decide) (by decide) (by decide) (by decide)

theorem ar_subject_ne (s : String) : "Auto Reply: " ++ s ≠ s := by
  intro h
  have hlen := congrArg String.length h
  rw [String.length_append] at hlen
  have h12 : ("Auto Reply: " : String).length = 12 := rfl
  rw [h12] at hlen
  omega

/-- Claim C3, counterexample: on a successful send to two To-recipients,
the per-recipient copies store `recipients = [receiving address]`, not the
full To list — the second stored record (the copy for `a@x`) has
recipients `["a@x"]`, refuting the claim that every copy's recipients
field equals the original full To list. -/
theorem send_copy_recipients_counterexample :
    ((sendEmailF noFault wSt "s@x" ["a@x", "b@x"] [] [] "hi" "hello" [] 0).isOk = true) ∧
    ((sendEmailF noFault wSt "s@x" ["a@x", "b@x"] [] [] "hi" "hello" [] 0).stOf.emails.map
      (fun e => e.recipients) = [["a@x", "b@x"], ["a@x"], ["b@x"]]) ∧
    ¬ (∀ e ∈ (sendEmailF noFault wSt "s@x" ["a@x", "b@x"] [] [] "hi" "hello"
        [] 0).stOf.emails,
      e.folder ≠ Folder.sent → e.recipients = ["a@x", "b@x"]) := by
  decide

/-- Claim C3, amended: on a successful send, every stored inbox-or-spam
copy of the logical message (identified by carrying the original subject
and not sitting in the sent folder) has `recipients` equal to the
singleton of its receiving address — one of the To, cc or bcc addresses —
while its `cc` and `bcc` fields carry the original full lists. -/
theorem send_copies_metadata
    (st0 : ServerState) (senderEmail : String) (recipients cc bcc : List String)
    (subject body : String) (attachments : List Attachment) (now : Nat)
    (hr : ∀ a ∈ recipients, notBlank a = true)
    (hc : ∀ a ∈ cc, notBlank a = true)
    (hb : ∀ a ∈ bcc, notBlank a = true)
    (hok : (sendEmailF noFault st0 senderEmail recipients cc bcc subject body attachments
      now).isOk = true) :
    ∃ added,
      (sendEmailF noFault st0 senderEmail recipients cc bcc subject body attachments
        now).stOf.emails = st0.emails ++ added ∧
      ∀ e ∈ added, e.folder ≠ Folder.sent → e.subject = subject →
        (∃ a ∈ recipients ++ cc ++ bcc, e.recipients = [a]) ∧ e.cc = cc ∧ e.bcc = bcc := by
  obtain ⟨hemp, hva, hvc, hvb⟩ := sendEmailF_ok_elim hok
  obtain ⟨st3, st4, st5, h3, h4, h5, hfin⟩ :=
    sendEmailF_run st0 senderEmail recipients cc bcc subject body attachments now
      hemp hva hvc hvb
  rw [filter_notBlank_eq hr, filter_notBlank_eq hc, filter_notBlank_eq hb] at h3 h4 h5
  rw [validAllR_eq hr hc hb] at hva
  rw [validAllC_eq hr hc hb] at hvc
  rw [validAllB_eq hr hc hb] at hvb
  have hrus : ∀ u ∈ (sendCtxOf st0 senderEmail recipients cc bcc subject body attachments
      now).rus,
      u ∈ (afterSent st0 senderEmail recipients cc bcc subject body attachments now).users ∧
        u.isEmailVerified = true := by
    rw [sendCtxOf_rus, afterSent_users]
    exact sendRus_sub st0 recipients cc bcc
  obtain ⟨st3x, added1, h3x, hem1, _, hg1, _, hcar1, _⟩ :=
    fanLoop_full (sendCtxOf st0 senderEmail recipients cc bcc subject body attachments now)
      true recipients
      (afterSent st0 senderEmail recipients cc bcc subject body attachments now) hrus
      (validAll_find hva)
  rw [h3] at h3x
  cases h3x
  have hrus3 : ∀ u ∈ (sendCtxOf st0 senderEmail recipients cc bcc subject body attachments
      now).rus, u ∈ st3.users ∧ u.isEmailVerified = true := by
    intro u hu
    rw [hg1.1, afterSent_users]
    exact ⟨(sendRus_sub st0 recipients cc bcc u (by rw [sendCtxOf_rus] at hu; exact hu)).1,
      (sendRus_sub st0 recipients cc bcc u (by rw [sendCtxOf_rus] at hu; exact hu)).2⟩
  obtain ⟨st4x, added2, h4x, hem2, _, hg2, _, hcar2, _⟩ :=
    fanLoop_full (sendCtxOf st0 senderEmail recipients cc bcc subject body attachments now)
      false cc st3 hrus3 (validAll_find hvc)
  rw [h4] at h4x
  cases h4x
  have hrus4 : ∀ u ∈ (sendCtxOf st0 senderEmail recipients cc bcc subject body attachments
      now).rus, u ∈ st4.users ∧ u.isEmailVerified = true := by
    intro u hu
    rw [hg2.1]
    exact hrus3 u hu
  obtain ⟨st5x, added3, h5x, hem3, _, hg3, _, hcar3, _⟩ :=
    fanLoop_full (sendCtxOf st0 senderEmail recipients cc bcc subject body attachments now)
      false bcc st4 hrus4 (validAll_find hvb)
  rw [h5] at h5x
  cases h5x
  refine ⟨mkSent senderEmail recipients cc bcc subject body attachments now st0.nextEmailId ::
    (added1 ++ added2 ++ added3), ?_, ?_⟩
  · rw [hfin]
    show st5.emails = _
    rw [hem3, hem2, hem1, afterSent_emails]
    simp
  · intro e he hfold hsubj
    rcases List.mem_cons.mp he with rfl | he2
    · exact absurd rfl hfold
    have hcase : CopyProps (sendCtxOf st0 senderEmail recipients cc bcc subject body
        attachments now) (recipients ++ cc ++ bcc) e ∨
        (∃ ars, ARProps (sendCtxOf st0 senderEmail recipients cc bcc subject body
          attachments now) ars (recipients ++ cc ++ bcc) e) := by
      rcases List.mem_append.mp he2 with he12 | he3
      · rcases List.mem_append.mp he12 with he1' | he2'
        · rcases hcar1 e he1' with hcp | har
          · left
            obtain ⟨p1, p2, p3, p4, p5, p6, a, ha, p7⟩ := hcp
            exact ⟨p1, p2, p3, p4, p5, p6, a, by simp [ha], p7⟩
          · right
            obtain ⟨-, q1, a, ha, q2, q3⟩ := har
            exact ⟨_, q1, a, by simp [ha], q2, q3⟩
        · rcases hcar2 e he2' with hcp | har
          · left
            obtain ⟨p1, p2, p3, p4, p5, p6, a, ha, p7⟩ := hcp
            exact ⟨p1, p2, p3, p4, p5, p6, a, by simp [ha], p7⟩
          · right
            obtain ⟨-, q1, a, ha, q2, q3⟩ := har
            exact ⟨_, q1, a, by simp [ha], q2, q3⟩
      · rcases hcar3 e he3 with hcp | har
        · left
          obtain ⟨p1, p2, p3, p4, p5, p6, a, ha, p7⟩ := hcp
          exact ⟨p1, p2, p3, p4, p5, p6, a, by simp [ha], p7⟩
        · right
          obtain ⟨-, q1, a, ha, q2, q3⟩ := har
          exact ⟨_, q1, a, by simp [ha], q2, q3⟩
    rcases hcase with hcp | ⟨ars, har⟩
    · obtain ⟨_, _, _, _, hcc, hbcc, a, ha, hrec⟩ := hcp
      exact ⟨⟨a, ha, hrec⟩, hcc, hbcc⟩
    · obtain ⟨_, a, _, _, hm⟩ := har
      have : e.subject = "Auto Reply: " ++ subject := by
        rcases hm with hm1 | hm1
        · exact hm1.2.2.1
        · exact hm1.2.2.1
      rw [hsubj] at this
      exact absurd this.symm (ar_subject_ne subject)

/-- Witness for the amended C3 at a concrete send with two To-recipients
and one cc. -/
theorem send_copies_metadata_witness :
    (∀ a ∈ ["a@x", "b@x"], notBlank a = true) ∧
    (∀ a ∈ ["c@x"], notBlank a = true) ∧
    (∀ a ∈ ([] : List String), notBlank a = true) ∧
    ((sendEmailF noFault wSt "s@x" ["a@x", "b@x"] ["c@x"] [] "hi" "hello" [] 0).isOk =
      true) ∧
    (∃ added,
      (sendEmailF noFault wSt "s@x" ["a@x", "b@x"] ["c@x"] [] "hi" "hello"
        [] 0).stOf.emails = wSt.emails ++ added ∧
      ∀ e ∈ added, e.folder ≠ Folder.sent → e.subject = "hi" →
        (∃ a ∈ ["a@x", "b@x"] ++ ["c@x"] ++ [], e.recipients = [a]) ∧
          e.cc = ["c@x"] ∧ e.bcc = []) := by
  refine ⟨by decide, by decide, by decide, by decide, ?_⟩
  exact send_copies_metadata wSt "s@x" ["a@x", "b@x"] ["c@x"] [] "hi" "hello" [] 0
    (by decide) (by decide) (by decide) (by decide)

/-- Whether an endpoint returning `Except` succeeded. -/
def isOkE (r : Except String ServerState) : Bool :=
  match r with
  | .ok _ => true
  | .error _ => false

/-- The state of an `Except` outcome, with a default for the error case. -/
def okD (d : ServerState) (r : Except String ServerState) : ServerState :=
  match r with
  | .ok s => s
  | .error _ => d

/-- The state reached by a successful spam send (body contains the keyword
"win a prize"): one sent copy and one spam copy with the Spam label. -/
def stC4 : ServerState :=
  (sendEmailF noFault wSt "s@x" ["a@x"] [] [] "hi" "win a prize now" [] 0).stOf

/-- Claim C4, counterexample: the invariant `isSpam = true ↔ folder = spam`
is not preserved by the system's own move-to-trash operation.  After a
successful spam send, the recipient moves their spam copy (id 1) to trash:
the stored record then has `isSpam = true` while `folder = trash`. -/
theorem spam_invariant_counterexample :
    ((sendEmailF noFault wSt "s@x" ["a@x"] [] [] "hi" "win a prize now" [] 0).isOk = true) ∧
    (∃ e ∈ stC4.emails, e.isSpam = true ∧ e.folder = Folder.spam) ∧
    (isOkE (moveToTrash stC4 "a@x" 1) = true) ∧
    (∃ e ∈ (okD stC4 (moveToTrash stC4 "a@x" 1)).emails,
      e.isSpam = true ∧ e.folder = Folder.trash ∧ ¬ e.folder = Folder.spam) := by
  decide

/-- Claim C4, amended: every message record created by a successful send
satisfies the invariant at creation time — `isSpam = true ↔ folder = spam`,
no labels unless spam, and when spam exactly the singleton of a system
"Spam" label owned by the verified recipient the copy is addressed to.
(The invariant is not preserved by the later move-to-trash and label
assign/remove operations, as the counterexample shows.) -/
theorem send_spam_invariant
    (st0 : ServerState) (senderEmail : String) (recipients cc bcc : List String)
    (subject body : String) (attachments : List Attachment) (now : Nat)
    (hr : ∀ a ∈ recipients, notBlank a = true)
    (hc : ∀ a ∈ cc, notBlank a = true)
    (hb : ∀ a ∈ bcc, notBlank a = true)
    (hok : (sendEmailF noFault st0 senderEmail recipients cc bcc subject body attachments
      now).isOk = true) :
    ∃ added,
      (sendEmailF noFault st0 senderEmail recipients cc bcc subject body attachments
        now).stOf.emails = st0.emails ++ added ∧
      ∀ e ∈ added,
        (e.isSpam = true ↔ e.folder = Folder.spam) ∧
        (e.isSpam = false → e.labels = []) ∧
        (e.isSpam = true → ∃ l ∈ (sendEmailF noFault st0 senderEmail recipients cc bcc
            subject body attachments now).stOf.labels,
          e.labels = [l.lid] ∧ l.name = "Spam" ∧ l.isSystemLabel = true ∧
          ∃ u ∈ st0.users, u.isEmailVerified = true ∧ e.recipients = [u.email] ∧
            l.userId = u.uid) := by
  obtain ⟨hemp, hva, hvc, hvb⟩ := sendEmailF_ok_elim hok
  obtain ⟨st3, st4, st5, h3, h4, h5, hfin⟩ :=
    sendEmailF_run st0 senderEmail recipients cc bcc subject body attachments now
      hemp hva hvc hvb
  rw [filter_notBlank_eq hr, filter_notBlank_eq hc, filter_notBlank_eq hb] at h3 h4 h5
  rw [validAllR_eq hr hc hb] at hva
  rw [validAllC_eq hr hc hb] at hvc
  rw [validAllB_eq hr hc hb] at hvb
  have hrus : ∀ u ∈ (sendCtxOf st0 senderEmail recipients cc bcc subject body attachments
      now).rus,
      u ∈ (afterSent st0 senderEmail recipients cc bcc subject body attachments now).users ∧
        u.isEmailVerified = true := by
    rw [sendCtxOf_rus, afterSent_users]
    exact sendRus_sub st0 recipients cc bcc
  obtain ⟨st3x, added1, h3x, hem1, _, hg1, hinv1, _, _⟩ :=
    fanLoop_full (sendCtxOf st0 senderEmail recipients cc bcc subject body attachments now)
      true recipients
      (afterSent st0 senderEmail recipients cc bcc subject body attachments now) hrus
      (validAll_find hva)
  rw [h3] at h3x
  cases h3x
  have hrus3 : ∀ u ∈ (sendCtxOf st0 senderEmail recipients cc bcc subject body attachments
      now).rus, u ∈ st3.users ∧ u.isEmailVerified = true := by
    intro u hu
    rw [hg1.1]
    exact hrus u hu
  obtain ⟨st4x, added2, h4x, hem2, _, hg2, hinv2, _, _⟩ :=
    fanLoop_full (sendCtxOf st0 senderEmail recipients cc bcc subject body attachments now)
      false cc st3 hrus3 (validAll_find hvc)
  rw [h4] at h4x
  cases h4x
  have hrus4 : ∀ u ∈ (sendCtxOf st0 senderEmail recipients cc bcc subject body attachments
      now).rus, u ∈ st4.users ∧ u.isEmailVerified = true := by
    intro u hu
    rw [hg2.1]
    exact hrus3 u hu
  obtain ⟨st5x, added3, h5x, hem3, _, hg3, hinv3, _, _⟩ :=
    fanLoop_full (sendCtxOf st0 senderEmail recipients cc bcc subject body attachments now)
      false bcc st4 hrus4 (validAll_find hvb)
  rw [h5] at h5x
  cases h5x
  have hstOf : (sendEmailF noFault st0 senderEmail recipients cc bcc subject body attachments
      now).stOf = st5 := by
    rw [hfin]
    rfl
  have husers5 : st5.users = st0.users := by
    rw [hg3.1, hg2.1, hg1.1, afterSent_users]
  refine ⟨mkSent senderEmail recipients cc bcc subject body attachments now st0.nextEmailId ::
    (added1 ++ added2 ++ added3), ?_, ?_⟩
  · rw [hstOf, hem3, hem2, hem1, afterSent_emails]
    simp
  · intro e he
    have hconv : SpamInv st5 e →
        (e.isSpam = true ↔ e.folder = Folder.spam) ∧
        (e.isSpam = false → e.labels = []) ∧
        (e.isSpam = true → ∃ l ∈ (sendEmailF noFault st0 senderEmail recipients cc bcc
            subject body attachments now).stOf.labels,
          e.labels = [l.lid] ∧ l.name = "Spam" ∧ l.isSystemLabel = true ∧
          ∃ u ∈ st0.users, u.isEmailVerified = true ∧ e.recipients = [u.email] ∧
            l.userId = u.uid) := by
      intro hsi
      refine ⟨hsi.1, hsi.2.1, ?_⟩
      intro hsp
      obtain ⟨l, hl, hel, hn, hs, u, hu, huv, hre, hid⟩ := hsi.2.2 hsp
      rw [husers5] at hu
      rw [hstOf]
      exact ⟨l, hl, hel, hn, hs, u, hu, huv, hre, hid⟩
    rcases List.mem_cons.mp he with rfl | he2
    · refine ⟨?_, fun _ => rfl, ?_⟩
      · constructor
        · intro h
          cases h
        · intro h
          cases h
      · intro h
        cases h
    rcases List.mem_append.mp he2 with he12 | he3
    · rcases List.mem_append.mp he12 with he1' | he2'
      · exact hconv ((hinv1 e he1').mono (hg2.trans hg3))
      · exact hconv ((hinv2 e he2').mono hg3)
    · exact hconv (hinv3 e he3)

/-- Witness for the amended C4 at a concrete spam send (keyword rule
fires), where the single recipient copy lands in spam with the Spam
label. -/
theorem send_spam_invariant_witness :
    (∀ a ∈ ["a@x"], notBlank a = true) ∧
    (∀ a ∈ ([] : List String), notBlank a = true) ∧
    ((sendEmailF noFault wSt "s@x" ["a@x"] [] [] "hi" "win a prize now" [] 0).isOk =
      true) ∧
    (∃ added,
      (sendEmailF noFault wSt "s@x" ["a@x"] [] [] "hi" "win a prize now"
        [] 0).stOf.emails = wSt.emails ++ added ∧
      ∀ e ∈ added,
        (e.isSpam = true ↔ e.folder = Folder.spam) ∧
        (e.isSpam = false → e.labels = []) ∧
        (e.isSpam = true → ∃ l ∈ (sendEmailF noFault wSt "s@x" ["a@x"] [] [] "hi"
            "win a prize now" [] 0).stOf.labels,
          e.labels = [l.lid] ∧ l.name = "Spam" ∧ l.isSystemLabel = true ∧
          ∃ u ∈ wSt.users, u.isEmailVerified = true ∧ e.recipients = [u.email] ∧
            l.userId = u.uid)) := by
  refine ⟨by decide, by decide, by decide, ?_⟩
  exact send_spam_invariant wSt "s@x" ["a@x"] [] [] "hi" "win a prize now" [] 0
    (by decide) (by decide) (by decide) (by decide)

/-- Claim C5: on a successful send, the classifier runs exactly once
(auto-replies never re-classify); exactly one auto-reply pair is appended
per firing To-address — recursion depth 1, so the count of appended
records is 1 + N + M + K + 2·(firing To-addresses) — every appended record
is either a primary-message record (original subject) or an auto-reply
artifact of a firing To-address (never of a cc/bcc-only membership);
both halves of the pair exist for every firing To-address, with subject
"Auto Reply: " prefixed to the original and the configured text as body;
and the firing condition is exactly: verdict false, address resolves in
the directory query, config exists with enabled, identity verified. -/
theorem send_autoreply_spec
    (st0 : ServerState) (senderEmail : String) (recipients cc bcc : List String)
    (subject body : String) (attachments : List Attachment) (now : Nat)
    (hr : ∀ a ∈ recipients, notBlank a = true)
    (hc : ∀ a ∈ cc, notBlank a = true)
    (hb : ∀ a ∈ bcc, notBlank a = true)
    (hok : (sendEmailF noFault st0 senderEmail recipients cc bcc subject body attachments
      now).isOk = true) :
    ∃ added,
      (sendEmailF noFault st0 senderEmail recipients cc bcc subject body attachments
        now).stOf.emails = st0.emails ++ added ∧
      (sendEmailF noFault st0 senderEmail recipients cc bcc subject body attachments
        now).stOf.classifierCalls = st0.classifierCalls + 1 ∧
      added.length = 1 + recipients.length + cc.length + bcc.length +
        2 * (recipients.filter (fun a =>
          arFire (sendCtxOf st0 senderEmail recipients cc bcc subject body attachments now)
            st0.autoReplies a)).length ∧
      (∀ e ∈ added, e.subject = subject ∨
        ARProps (sendCtxOf st0 senderEmail recipients cc bcc subject body attachments now)
          st0.autoReplies recipients e) ∧
      (∀ a ∈ recipients,
        arFire (sendCtxOf st0 senderEmail recipients cc bcc subject body attachments now)
          st0.autoReplies a = true →
        (∃ e ∈ added, ARMail (sendCtxOf st0 senderEmail recipients cc bcc subject body
          attachments now) st0.autoReplies a Folder.sent e) ∧
        (∃ e ∈ added, ARMail (sendCtxOf st0 senderEmail recipients cc bcc subject body
          attachments now) st0.autoReplies a Folder.inbox e)) ∧
      (∀ a, arFire (sendCtxOf st0 senderEmail recipients cc bcc subject body attachments now)
          st0.autoReplies a =
        (!(sendVerdict st0 senderEmail recipients cc bcc subject body attachments now) &&
          arConfigured (sendRus st0 recipients cc bcc) st0.autoReplies a)) ∧
      ("Auto Reply: " ++ subject ≠ subject) := by
  obtain ⟨hemp, hva, hvc, hvb⟩ := sendEmailF_ok_elim hok
  obtain ⟨st3, st4, st5, h3, h4, h5, hfin⟩ :=
    sendEmailF_run st0 senderEmail recipients cc bcc subject body attachments now
      hemp hva hvc hvb
  rw [filter_notBlank_eq hr, filter_notBlank_eq hc, filter_notBlank_eq hb] at h3 h4 h5
  rw [validAllR_eq hr hc hb] at hva
  rw [validAllC_eq hr hc hb] at hvc
  rw [validAllB_eq hr hc hb] at hvb
  have hrus : ∀ u ∈ (sendCtxOf st0 senderEmail recipients cc bcc subject body attachments
      now).rus,
      u ∈ (afterSent st0 senderEmail recipients cc bcc subject body attachments now).users ∧
        u.isEmailVerified = true := by
    rw [sendCtxOf_rus, afterSent_users]
    exact sendRus_sub st0 recipients cc bcc
  obtain ⟨st3x, added1, h3x, hem1, hlen1, hg1, _, hcar1, hex1⟩ :=
    fanLoop_full (sendCtxOf st0 senderEmail recipients cc bcc subject body attachments now)
      true recipients
      (afterSent st0 senderEmail recipients cc bcc subject body attachments now) hrus
      (validAll_find hva)
  rw [h3] at h3x
  cases h3x
  rw [afterSent_autoReplies] at hlen1 hcar1 hex1
  have hrus3 : ∀ u ∈ (sendCtxOf st0 senderEmail recipients cc bcc subject body attachments
      now).rus, u ∈ st3.users ∧ u.isEmailVerified = true := by
    intro u hu
    rw [hg1.1]
    exact hrus u hu
  obtain ⟨st4x, added2, h4x, hem2, hlen2, hg2, _, hcar2, _⟩ :=
    fanLoop_full (sendCtxOf st0 senderEmail recipients cc bcc subject body attachments now)
      false cc st3 hrus3 (validAll_find hvc)
  rw [h4] at h4x
  cases h4x
  have hrus4 : ∀ u ∈ (sendCtxOf st0 senderEmail recipients cc bcc subject body attachments
      now).rus, u ∈ st4.users ∧ u.isEmailVerified = true := by
    intro u hu
    rw [hg2.1]
    exact hrus3 u hu
  obtain ⟨st5x, added3, h5x, hem3, hlen3, hg3, _, hcar3, _⟩ :=
    fanLoop_full (sendCtxOf st0 senderEmail recipients cc bcc subject body attachments now)
      false bcc st4 hrus4 (validAll_find hvb)
  rw [h5] at h5x
  cases h5x
  have hstOf : (sendEmailF noFault st0 senderEmail recipients cc bcc subject body attachments
      now).stOf = st5 := by
    rw [hfin]
    rfl
  refine ⟨mkSent senderEmail recipients cc bcc subject body attachments now st0.nextEmailId ::
    (added1 ++ added2 ++ added3), ?_, ?_, ?_, ?_, ?_, fun a => rfl, ar_subject_ne subject⟩
  · rw [hstOf, hem3, hem2, hem1, afterSent_emails]
    simp
  · rw [hstOf, hg3.2.2.1, hg2.2.2.1, hg1.2.2.1, afterSent_classifier]
  · simp only [Bool.true_and] at hlen1
    simp only [Bool.false_and] at hlen2 hlen3
    simp only [List.filter_false, List.length_nil, Nat.mul_zero, Nat.add_zero] at hlen2 hlen3
    simp only [List.length_cons, List.length_append, hlen1, hlen2, hlen3]
    omega
  · intro e he
    rcases List.mem_cons.mp he with rfl | he2
    · left
      rfl
    rcases List.mem_append.mp he2 with he12 | he3
    · rcases List.mem_append.mp he12 with he1' | he2'
      · rcases hcar1 e he1' with hcp | ⟨-, har⟩
        · left
          exact hcp.1
        · right
          exact har
      · rcases hcar2 e he2' with hcp | ⟨hd, -⟩
        · left
          exact hcp.1
        · cases hd
    · rcases hcar3 e he3 with hcp | ⟨hd, -⟩
      · left
        exact hcp.1
      · cases hd
  · intro a ha hfire
    have hfa : (true && arFire (sendCtxOf st0 senderEmail recipients cc bcc subject body
        attachments now) st0.autoReplies a) = true := by
      rw [hfire]
      rfl
    obtain ⟨⟨e1, he1, hm1⟩, ⟨e2, he2, hm2⟩⟩ := hex1 a ha hfa
    exact ⟨⟨e1, by simp [he1], hm1⟩, ⟨e2, by simp [he2], hm2⟩⟩

/-- A concrete state where `a@x` (uid 1) has auto-reply enabled with
message "Away". -/
def wStAR : ServerState := ⟨wUsers, [], [], [⟨1, true, "Away"⟩], [], 0, 0, 0, 0⟩

/-- Witness for C5 at a concrete send where the single To-recipient has
auto-reply enabled and the verdict is not spam. -/
theorem send_autoreply_spec_witness :
    (∀ a ∈ ["a@x"], notBlank a = true) ∧
    (∀ a ∈ ["b@x"], notBlank a = true) ∧
    (∀ a ∈ ([] : List String), notBlank a = true) ∧
    ((sendEmailF noFault wStAR "s@x" ["a@x"] ["b@x"] [] "hi" "hello" [] 0).isOk = true) ∧
    (∃ added,
      (sendEmailF noFault wStAR "s@x" ["a@x"] ["b@x"] [] "hi" "hello" [] 0).stOf.emails =
        wStAR.emails ++ added ∧
      (sendEmailF noFault wStAR "s@x" ["a@x"] ["b@x"] [] "hi" "hello"
        [] 0).stOf.classifierCalls = wStAR.classifierCalls + 1 ∧
      added.length = 1 + (["a@x"] : List String).length + (["b@x"] : List String).length +
        ([] : List String).length +
        2 * ((["a@x"] : List String).filter (fun a =>
          arFire (sendCtxOf wStAR "s@x" ["a@x"] ["b@x"] [] "hi" "hello" [] 0)
            wStAR.autoReplies a)).length ∧
      (∀ e ∈ added, e.subject = "hi" ∨
        ARProps (sendCtxOf wStAR "s@x" ["a@x"] ["b@x"] [] "hi" "hello" [] 0)
          wStAR.autoReplies ["a@x"] e) ∧
      (∀ a ∈ ["a@x"],
        arFire (sendCtxOf wStAR "s@x" ["a@x"] ["b@x"] [] "hi" "hello" [] 0)
          wStAR.autoReplies a = true →
        (∃ e ∈ added, ARMail (sendCtxOf wStAR "s@x" ["a@x"] ["b@x"] [] "hi" "hello" [] 0)
          wStAR.autoReplies a Folder.sent e) ∧
        (∃ e ∈ added, ARMail (sendCtxOf wStAR "s@x" ["a@x"] ["b@x"] [] "hi" "hello" [] 0)
          wStAR.autoReplies a Folder.inbox e)) ∧
      (∀ a, arFire (sendCtxOf wStAR "s@x" ["a@x"] ["b@x"] [] "hi" "hello" [] 0)
          wStAR.autoReplies a =
        (!(sendVerdict wStAR "s@x" ["a@x"] ["b@x"] [] "hi" "hello" [] 0) &&
          arConfigured (sendRus wStAR ["a@x"] ["b@x"] []) wStAR.autoReplies a)) ∧
      ("Auto Reply: " ++ "hi" ≠ "hi")) := by
  refine ⟨by decide, by decide, by decide, by decide, ?_⟩
  exact send_autoreply_spec wStAR "s@x" ["a@x"] ["b@x"] [] "hi" "hello" [] 0
    (by decide) (by decide) (by decide) (by decide)

theorem hasSub_iff (pat s : List Char) : hasSub pat s = true ↔ pat <:+: s := by
  induction s with
  | nil =>
    unfold hasSub
    rw [List.infix_nil, List.isEmpty_iff]
  | cons c rest ih =>
    unfold hasSub
    rw [Bool.or_eq_true, List.infix_cons_iff, List.isPrefixOf_iff_prefix, ih]

theorem hasSpamKeyword_iff (su bo : List Char) :
    hasSpamKeyword su bo = true ↔
      ∃ kw ∈ spamKeywords, kw.data <:+: su ∨ kw.data <:+: bo := by
  unfold hasSpamKeyword
  rw [List.any_eq_true]
  constructor
  · rintro ⟨kw, hkw, hp⟩
    rcases Bool.or_eq_true _ _ |>.mp hp with h | h
    · exact ⟨kw, hkw, Or.inl ((hasSub_iff _ _).mp h)⟩
    · exact ⟨kw, hkw, Or.inr ((hasSub_iff _ _).mp h)⟩
  · rintro ⟨kw, hkw, h | h⟩
    · exact ⟨kw, hkw, Bool.or_eq_true _ _ |>.mpr (Or.inl ((hasSub_iff _ _).mpr h))⟩
    · exact ⟨kw, hkw, Bool.or_eq_true _ _ |>.mpr (Or.inr ((hasSub_iff _ _).mpr h))⟩

theorem findVerified_isNone_iff (users : List UserRec) (sender : String) :
    (findVerified users sender).isNone = true ↔
      ¬ ∃ u ∈ users, u.email = sender ∧ u.isEmailVerified = true := by
  unfold findVerified
  rw [Option.isNone_iff_eq_none, List.find?_eq_none]
  constructor
  · rintro h ⟨u, hu, he, hv⟩
    exact h u hu (by simp [he, hv])
  · intro h u hu hp
    rcases Bool.and_eq_true _ _ |>.mp hp with ⟨he, hv⟩
    exact h ⟨u, hu, by simpa using he, hv⟩

theorem suspiciousAtt_iff (att : Attachment) :
    suspiciousAtt att = true ↔
      att.size > 5 * 1024 * 1024 ∨ extOf att.filename ∉ allowedExts := by
  unfold suspiciousAtt
  rw [Bool.or_eq_true]
  constructor
  · rintro (h | h)
    · exact Or.inl (by simpa using h)
    · refine Or.inr ?_
      intro hmem
      rw [Bool.not_eq_true', Bool.eq_false_iff] at h
      exact h (List.elem_iff.mpr hmem)
  · rintro (h | h)
    · exact Or.inl (by simpa using h)
    · refine Or.inr ?_
      rw [Bool.not_eq_true', Bool.eq_false_iff]
      intro hc
      exact h (List.elem_iff.mp hc)

/-- Claim C1: `detectSpam` returns true exactly when one of the five rules
holds — a keyword occurs (case-insensitively) in subject or body, the body
contains more than 5 HTTP/HTTPS URL occurrences, the sender does not
resolve to a verified directory identity, the To-recipient count exceeds
10, or some attachment exceeds 5 MiB or has an extension outside
jpg/jpeg/png/pdf; otherwise it returns false.  (Rules are evaluated in
this order with short-circuiting in the implementation.) -/
theorem detectSpam_rules (users : List UserRec) (m : EmailRec) (sender : String) :
    detectSpam users m sender = true ↔
      ((∃ kw ∈ spamKeywords, kw.data <:+: mkLower m.subject ∨ kw.data <:+: mkLower m.body) ∨
       countUrls (mkLower m.body) > 5 ∨
       (¬ ∃ u ∈ users, u.email = sender ∧ u.isEmailVerified = true) ∨
       m.recipients.length > 10 ∨
       (∃ att ∈ m.attachments, att.size > 5 * 1024 * 1024 ∨
         extOf att.filename ∉ allowedExts)) := by
  unfold detectSpam
  by_cases h1 : hasSpamKeyword (mkLower m.subject) (mkLower m.body) = true
  · simp only [h1, if_true]
    simp [(hasSpamKeyword_iff _ _).mp h1]
  · rw [Bool.not_eq_true] at h1
    simp only [h1, Bool.false_eq_true, if_false]
    have h1p := (hasSpamKeyword_iff (mkLower m.subject) (mkLower m.body)).not.mp
      (by rw [h1]; simp)
    by_cases h2 : countUrls (mkLower m.body) > 5
    · simp [h2]
    · simp only [h2, if_false]
      by_cases h3 : (findVerified users sender).isNone = true
      · simp only [h3, if_true]
        simp [h1p, h2, (findVerified_isNone_iff _ _).mp h3]
      · rw [Bool.not_eq_true] at h3
        simp only [h3, Bool.false_eq_true, if_false]
        have h3p := (findVerified_isNone_iff users sender).not.mp (by rw [h3]; simp)
        rw [not_not] at h3p
        by_cases h4 : m.recipients.length > 10
        · simp [h4]
        · simp only [h4, if_false]
          by_cases h5 : m.attachments.any suspiciousAtt = true
          · simp only [h5, if_true]
            have := List.any_eq_true.mp h5
            obtain ⟨att, hatt, hsus⟩ := this
            simp [h1p, h2, h3p, h4]
            exact ⟨att, hatt, (suspiciousAtt_iff att).mp hsus⟩
          · rw [Bool.not_eq_true] at h5
            simp only [h5, Bool.false_eq_true, if_false]
            have h5p : ¬ ∃ att ∈ m.attachments, att.size > 5 * 1024 * 1024 ∨
                extOf att.filename ∉ allowedExts := by
              intro ⟨att, hatt, hp⟩
              have : m.attachments.any suspiciousAtt = true :=
                List.any_eq_true.mpr ⟨att, hatt, (suspiciousAtt_iff att).mpr hp⟩
              rw [h5] at this
              cases this
            simp [h1p, h2, h3p, h4, h5p]

/-- Claim C8: the classifier's catch handler maps every internal fault —
an absent subject or body field, or a throwing directory lookup — to the
verdict `false` ("not spam") instead of propagating the error; and on
fault-free inputs the caught classifier computes exactly `detectSpam`
(the function writes nothing: its only output is the returned Bool). -/
theorem detectSpam_fail_open :
    (∀ (lookup : Except Unit Bool) (subject body : Option String)
      (recipients : List String) (atts : List Attachment),
      (∃ er, detectSpamE lookup subject body recipients atts = .error er) →
      detectSpamCaught lookup subject body recipients atts = false) ∧
    (∀ (users : List UserRec) (m : EmailRec) (sender : String),
      detectSpamE (dirLookup users sender) (some m.subject) (some m.body) m.recipients
        m.attachments = .ok (detectSpam users m sender)) := by
  constructor
  · intro lookup subject body recipients atts ⟨er, her⟩
    unfold detectSpamCaught
    rw [her]
  · intro users m sender
    unfold detectSpamE detectSpam dirLookup
    by_cases h1 : hasSpamKeyword (mkLower m.subject) (mkLower m.body) = true
    · simp [h1]
    · rw [Bool.not_eq_true] at h1
      simp only [h1, Bool.false_eq_true, if_false]
      by_cases h2 : countUrls (mkLower m.body) > 5
      · simp [h2]
      · simp only [h2, if_false]
        cases ho : findVerified users sender with
        | none => simp
        | some u =>
          simp only [Option.isSome_some, Bool.not_true, Bool.false_eq_true, if_false,
            Option.isNone_some]
          by_cases h4 : m.recipients.length > 10
          · simp [h4]
          · simp only [h4, if_false]
            by_cases h5 : m.attachments.any suspiciousAtt = true
            · simp [h5]
            · rw [Bool.not_eq_true] at h5
              simp [h5]

/-- Witness for C8: a throwing directory lookup on an otherwise clean
message yields the verdict false. -/
theorem detectSpam_fail_open_witness :
    (detectSpamE (.error ()) (some "a") (some "b") [] [] = .error ()) ∧
    detectSpamCaught (.error ()) (some "a") (some "b") [] [] = false := by
  refine ⟨by rfl, ?_⟩
  exact detectSpam_fail_open.1 (.error ()) (some "a") (some "b") [] [] ⟨(), by rfl⟩

/-- `User` resolution used by the validation claims: some verified user
record carries this email. -/
def isVerifiedEmail (users : List UserRec) (e : String) : Bool :=
  users.any fun u => u.email == e && u.isEmailVerified

theorem valid_any_iff (st0 : ServerState) (r c b : List String) (a : String)
    (ha : a ∈ r ++ c ++ b) :
    ((sendRus st0 r c b).any fun u => u.email == a) = true ↔
      isVerifiedEmail st0.users a = true := by
  unfold sendRus isVerifiedEmail
  rw [List.any_eq_true, List.any_eq_true]
  constructor
  · rintro ⟨u, hu, hp⟩
    rw [List.mem_filter] at hu
    rcases Bool.and_eq_true _ _ |>.mp hu.2 with ⟨_, hv⟩
    exact ⟨u, hu.1, by rw [Bool.and_eq_true]; exact ⟨hp, hv⟩⟩
  · rintro ⟨u, hu, hp⟩
    rcases Bool.and_eq_true _ _ |>.mp hp with ⟨he, hv⟩
    refine ⟨u, ?_, he⟩
    rw [List.mem_filter]
    refine ⟨hu, ?_⟩
    rw [Bool.and_eq_true]
    refine ⟨?_, hv⟩
    rw [List.elem_iff, mem_dedupMem]
    have : u.email = a := by simpa using he
    rw [this]
    exact ha

theorem validAllR_prop {st0 : ServerState} {r c b : List String}
    (hr : ∀ a ∈ r, notBlank a = true) (hc : ∀ a ∈ c, notBlank a = true)
    (hb : ∀ a ∈ b, notBlank a = true) :
    validAllR st0 r c b = true ↔ ∀ a ∈ r, isVerifiedEmail st0.users a = true := by
  rw [validAllR_eq hr hc hb, List.all_eq_true]
  constructor
  · intro h a ha
    exact (valid_any_iff st0 r c b a (by simp [ha])).mp (h a ha)
  · intro h a ha
    exact (valid_any_iff st0 r c b a (by simp [ha])).mpr (h a ha)

theorem validAllC_prop {st0 : ServerState} {r c b : List String}
    (hr : ∀ a ∈ r, notBlank a = true) (hc : ∀ a ∈ c, notBlank a = true)
    (hb : ∀ a ∈ b, notBlank a = true) :
    validAllC st0 r c b = true ↔ ∀ a ∈ c, isVerifiedEmail st0.users a = true := by
  rw [validAllC_eq hr hc hb, List.all_eq_true]
  constructor
  · intro h a ha
    exact (valid_any_iff st0 r c b a (by simp [ha])).mp (h a ha)
  · intro h a ha
    exact (valid_any_iff st0 r c b a (by simp [ha])).mpr (h a ha)

theorem validAllB_prop {st0 : ServerState} {r c b : List String}
    (hr : ∀ a ∈ r, notBlank a = true) (hc : ∀ a ∈ c, notBlank a = true)
    (hb : ∀ a ∈ b, notBlank a = true) :
    validAllB st0 r c b = true ↔ ∀ a ∈ b, isVerifiedEmail st0.users a = true := by
  rw [validAllB_eq hr hc hb, List.all_eq_true]
  constructor
  · intro h a ha
    exact (valid_any_iff st0 r c b a (by simp [ha])).mp (h a ha)
  · intro h a ha
    exact (valid_any_iff st0 r c b a (by simp [ha])).mpr (h a ha)

/-- Claim C7: when some address among recipients, cc or bcc does not
resolve to a verified identity, the send fails — before any write, for
every fault oracle — with a validation error that names the first failing
list in the order recipients, cc, bcc, and the state returned alongside
the error is the untouched input state. -/
theorem send_validation_allornothing
    (sf : Nat → Bool) (st0 : ServerState) (senderEmail : String)
    (recipients cc bcc : List String) (subject body : String)
    (attachments : List Attachment) (now : Nat)
    (hr : ∀ a ∈ recipients, notBlank a = true)
    (hc : ∀ a ∈ cc, notBlank a = true)
    (hb : ∀ a ∈ bcc, notBlank a = true)
    (hne : recipients ≠ [])
    (hbad : ∃ a ∈ recipients ++ cc ++ bcc, isVerifiedEmail st0.users a = false) :
    ∃ msg,
      sendEmailF sf st0 senderEmail recipients cc bcc subject body attachments now =
        .vErr msg st0 ∧
      ((¬ ∀ a ∈ recipients, isVerifiedEmail st0.users a = true) →
        msg = "Some recipients not found or unverified") ∧
      ((∀ a ∈ recipients, isVerifiedEmail st0.users a = true) →
        (¬ ∀ a ∈ cc, isVerifiedEmail st0.users a = true) →
        msg = "Some CC recipients not found or unverified") ∧
      ((∀ a ∈ recipients, isVerifiedEmail st0.users a = true) →
        (∀ a ∈ cc, isVerifiedEmail st0.users a = true) →
        msg = "Some BCC recipients not found or unverified") := by
  have hemp : (recipients.filter notBlank).isEmpty = false := by
    rw [filter_notBlank_eq hr]
    cases recipients with
    | nil => exact absurd rfl hne
    | cons x rest => rfl
  cases hva : validAllR st0 recipients cc bcc with
  | false =>
    refine ⟨"Some recipients not found or unverified",
      sendEmailF_vErr_recipients sf st0 senderEmail recipients cc bcc subject body
        attachments now hemp hva, fun _ => rfl, ?_, ?_⟩
    · intro hall _
      exact absurd ((validAllR_prop hr hc hb).mpr hall) (by rw [hva]; simp)
    · intro hall _
      exact absurd ((validAllR_prop hr hc hb).mpr hall) (by rw [hva]; simp)
  | true =>
    have hallr := (validAllR_prop hr hc hb).mp hva
    cases hvc : validAllC st0 recipients cc bcc with
    | false =>
      refine ⟨"Some CC recipients not found or unverified",
        sendEmailF_vErr_cc sf st0 senderEmail recipients cc bcc subject body attachments
          now hemp hva hvc, ?_, fun _ _ => rfl, ?_⟩
      · intro hnall
        exact absurd hallr hnall
      · intro _ hallc
        exact absurd ((validAllC_prop hr hc hb).mpr hallc) (by rw [hvc]; simp)
    | true =>
      have hallc := (validAllC_prop hr hc hb).mp hvc
      cases hvb : validAllB st0 recipients cc bcc with
      | false =>
        refine ⟨"Some BCC recipients not found or unverified",
          sendEmailF_vErr_bcc sf st0 senderEmail recipients cc bcc subject body attachments
            now hemp hva hvc hvb, ?_, ?_, fun _ _ => rfl⟩
        · intro hnall
          exact absurd hallr hnall
        · intro _ hnall
          exact absurd hallc hnall
      | true =>
        exfalso
        have hallb := (validAllB_prop hr hc hb).mp hvb
        obtain ⟨a, ha, hfa⟩ := hbad
        rcases List.mem_append.mp ha with h12 | h3
        · rcases List.mem_append.mp h12 with h1 | h2
          · rw [hallr a h1] at hfa
            cases hfa
          · rw [hallc a h2] at hfa
            cases hfa
        · rw [hallb a h3] at hfa
          cases hfa

/-- Witness for C7: a send whose cc contains an address unknown to the
directory fails with the CC validation error and the untouched state. -/
theorem send_validation_allornothing_witness :
    (∀ a ∈ ["a@x"], notBlank a = true) ∧
    (∀ a ∈ ["z@x"], notBlank a = true) ∧
    (∀ a ∈ ([] : List String), notBlank a = true) ∧
    (["a@x"] : List String) ≠ [] ∧
    (∃ a ∈ ["a@x"] ++ ["z@x"] ++ [], isVerifiedEmail wSt.users a = false) ∧
    (∃ msg,
      sendEmailF noFault wSt "s@x" ["a@x"] ["z@x"] [] "hi" "hello" [] 0 =
        .vErr msg wSt ∧
      ((¬ ∀ a ∈ ["a@x"], isVerifiedEmail wSt.users a = true) →
        msg = "Some recipients not found or unverified") ∧
      ((∀ a ∈ ["a@x"], isVerifiedEmail wSt.users a = true) →
        (¬ ∀ a ∈ ["z@x"], isVerifiedEmail wSt.users a = true) →
        msg = "Some CC recipients not found or unverified") ∧
      ((∀ a ∈ ["a@x"], isVerifiedEmail wSt.users a = true) →
        (∀ a ∈ ["z@x"], isVerifiedEmail wSt.users a = true) →
        msg = "Some BCC recipients not found or unverified")) := by
  refine ⟨by decide, by decide, by decide, by decide, by decide, ?_⟩
  exact send_validation_allornothing noFault wSt "s@x" ["a@x"] ["z@x"] [] "hi" "hello" [] 0
    (by decide) (by decide) (by decide) (by decide) (by decide)

/-- The fault oracle that makes the second email save of the request (the
first recipient's copy) throw. -/
def sfC6 : Nat → Bool := fun k => k == 1

/-- Claim C6, counterexample: when persisting the first recipient's copy
fails, the request is NOT reported successful even though the sender's
sent-copy was durably stored, and the fan-out does not continue — with
To-recipients `a@x` and `b@x` and a fault on save #1, the final state
holds only the sent copy (no copy for either recipient). -/
theorem send_partial_fault_counterexample :
    ((sendEmailF sfC6 wSt "s@x" ["a@x", "b@x"] [] [] "hi" "hello" [] 0).isOk = false) ∧
    ((sendEmailF sfC6 wSt "s@x" ["a@x", "b@x"] [] [] "hi" "hello" [] 0).stOf.emails.map
      (fun e => e.folder) = [Folder.sent]) := by
  decide

/-- Claim C6, amended: an uncaught persistence fault during the fan-out
(only notification faults are caught per-iteration) aborts the request
with a server error; the state carried by the error retains everything
persisted before the fault — in particular, when the sent-copy save itself
did not fault, the sent copy sits durably right after the pre-existing
records. -/
theorem send_fault_aborts
    (sf : Nat → Bool) (st0 : ServerState) (senderEmail : String)
    (recipients cc bcc : List String) (subject body : String)
    (attachments : List Attachment) (now : Nat) (stE : ServerState)
    (hserr : sendEmailF sf st0 senderEmail recipients cc bcc subject body attachments now =
      .sErr stE) :
    st0.emails <+: stE.emails ∧
    (sf st0.saveOps = false →
      st0.emails ++ [mkSent senderEmail (recipients.filter notBlank) (cc.filter notBlank)
        (bcc.filter notBlank) subject body attachments now st0.nextEmailId] <+:
        stE.emails) := by
  unfold sendEmailF at hserr
  cases hemp : (recipients.filter notBlank).isEmpty with
  | true =>
    rw [hemp] at hserr
    cases hserr
  | false =>
    rw [hemp] at hserr
    simp only [Bool.false_eq_true, if_false] at hserr
    cases hva : validAllR st0 recipients cc bcc with
    | false =>
      rw [hva] at hserr
      cases hserr
    | true =>
      rw [hva] at hserr
      simp only [Bool.not_true, Bool.false_eq_true, if_false] at hserr
      cases hvc : validAllC st0 recipients cc bcc with
      | false =>
        rw [hvc] at hserr
        cases hserr
      | true =>
        rw [hvc] at hserr
        simp only [Bool.not_true, Bool.false_eq_true, if_false] at hserr
        cases hvb : validAllB st0 recipients cc bcc with
        | false =>
          rw [hvb] at hserr
          cases hserr
        | true =>
          rw [hvb] at hserr
          simp only [Bool.not_true, Bool.false_eq_true, if_false] at hserr
          cases hsv : saveEmail sf st0 (mkSent senderEmail (recipients.filter notBlank)
              (cc.filter notBlank) (bcc.filter notBlank) subject body attachments now) with
          | error e =>
            rw [hsv] at hserr
            cases hserr
            obtain ⟨hg, hee⟩ := grows_saveEmail_error hsv
            have hf := (by
              unfold saveEmail at hsv
              split at hsv
              · next hcond => exact hcond
              · exact absurd hsv (by simp) : sf st0.saveOps = true)
            refine ⟨by rw [hee], ?_⟩
            intro hf2
            rw [hf] at hf2
            cases hf2
          | ok st1 =>
            rw [hsv] at hserr
            have hse := saveEmail_ok_emails hsv
            have hserr2 : (match fanLoop sf (sendCtxOf st0 senderEmail
                (recipients.filter notBlank) (cc.filter notBlank) (bcc.filter notBlank)
                subject body attachments now) true (recipients.filter notBlank)
                { st1 with classifierCalls := st1.classifierCalls + 1 } with
              | Except.error e => SendOut.sErr e
              | Except.ok st3 =>
                match fanLoop sf (sendCtxOf st0 senderEmail (recipients.filter notBlank)
                    (cc.filter notBlank) (bcc.filter notBlank) subject body attachments now)
                    false (cc.filter notBlank) st3 with
                | Except.error e => SendOut.sErr e
                | Except.ok st4 =>
                  match fanLoop sf (sendCtxOf st0 senderEmail (recipients.filter notBlank)
                      (cc.filter notBlank) (bcc.filter notBlank) subject body attachments
                      now) false (bcc.filter notBlank) st4 with
                  | Except.error e => SendOut.sErr e
                  | Except.ok st5 => SendOut.ok st5) = SendOut.sErr stE := hserr
            have hpre : st0.emails ++ [mkSent senderEmail (recipients.filter notBlank)
                (cc.filter notBlank) (bcc.filter notBlank) subject body attachments now
                st0.nextEmailId] = st1.emails := hse.1.symm
            have hdone : st1.emails <+: stE.emails → st0.emails <+: stE.emails ∧
                (sf st0.saveOps = false → st0.emails ++ [mkSent senderEmail
                  (recipients.filter notBlank) (cc.filter notBlank) (bcc.filter notBlank)
                  subject body attachments now st0.nextEmailId] <+: stE.emails) := by
              intro hp
              constructor
              · refine List.IsPrefix.trans ?_ hp
                rw [← hpre]
                exact List.prefix_append _ _
              · intro _
                rw [hpre]
                exact hp
            cases h3 : fanLoop sf (sendCtxOf st0 senderEmail (recipients.filter notBlank)
                (cc.filter notBlank) (bcc.filter notBlank) subject body attachments now)
                true (recipients.filter notBlank)
                { st1 with classifierCalls := st1.classifierCalls + 1 } with
            | error e =>
              rw [h3] at hserr2
              cases hserr2
              have hg := fanLoop_grows sf (sendCtxOf st0 senderEmail
                (recipients.filter notBlank) (cc.filter notBlank) (bcc.filter notBlank)
                subject body attachments now) true (recipients.filter notBlank)
                { st1 with classifierCalls := st1.classifierCalls + 1 }
              rw [h3] at hg
              exact hdone hg.2.2.2.1
            | ok st3 =>
              rw [h3] at hserr2
              have hg3 := fanLoop_grows sf (sendCtxOf st0 senderEmail
                (recipients.filter notBlank) (cc.filter notBlank) (bcc.filter notBlank)
                subject body attachments now) true (recipients.filter notBlank)
                { st1 with classifierCalls := st1.classifierCalls + 1 }
              rw [h3] at hg3
              have hserr3 : (match fanLoop sf (sendCtxOf st0 senderEmail
                  (recipients.filter notBlank) (cc.filter notBlank) (bcc.filter notBlank)
                  subject body attachments now) false (cc.filter notBlank) st3 with
                | Except.error e => SendOut.sErr e
                | Except.ok st4 =>
                  match fanLoop sf (sendCtxOf st0 senderEmail (recipients.filter notBlank)
                      (cc.filter notBlank) (bcc.filter notBlank) subject body attachments
                      now) false (bcc.filter notBlank) st4 with
                  | Except.error e => SendOut.sErr e
                  | Except.ok st5 => SendOut.ok st5) = SendOut.sErr stE := hserr2
              cases h4 : fanLoop sf (sendCtxOf st0 senderEmail (recipients.filter notBlank)
                  (cc.filter notBlank) (bcc.filter notBlank) subject body attachments now)
                  false (cc.filter notBlank) st3 with
              | error e =>
                rw [h4] at hserr3
                cases hserr3
                have hg := fanLoop_grows sf (sendCtxOf st0 senderEmail
                  (recipients.filter notBlank) (cc.filter notBlank) (bcc.filter notBlank)
                  subject body attachments now) false (cc.filter notBlank) st3
                rw [h4] at hg
                exact hdone (hg3.2.2.2.1.trans hg.2.2.2.1)
              | ok st4 =>
                rw [h4] at hserr3
                have hg4 := fanLoop_grows sf (sendCtxOf st0 senderEmail
                  (recipients.filter notBlank) (cc.filter notBlank) (bcc.filter notBlank)
                  subject body attachments now) false (cc.filter notBlank) st3
                rw [h4] at hg4
                have hserr4 : (match fanLoop sf (sendCtxOf st0 senderEmail
                    (recipients.filter notBlank) (cc.filter notBlank) (bcc.filter notBlank)
                    subject body attachments now) false (bcc.filter notBlank) st4 with
                  | Except.error e => SendOut.sErr e
                  | Except.ok st5 => SendOut.ok st5) = SendOut.sErr stE := hserr3
                cases h5 : fanLoop sf (sendCtxOf st0 senderEmail
                    (recipients.filter notBlank) (cc.filter notBlank)
                    (bcc.filter notBlank) subject body attachments now)
                    false (bcc.filter notBlank) st4 with
                | error e =>
                  rw [h5] at hserr4
                  cases hserr4
                  have hg := fanLoop_grows sf (sendCtxOf st0 senderEmail
                    (recipients.filter notBlank) (cc.filter notBlank)
                    (bcc.filter notBlank) subject body attachments now)
                    false (bcc.filter notBlank) st4
                  rw [h5] at hg
                  exact hdone ((hg3.2.2.2.1.trans hg4.2.2.2.1).trans hg.2.2.2.1)
                | ok st5 =>
                  rw [h5] at hserr4
                  cases hserr4

/-- Witness for the amended C6 at the concrete faulting send of the
counterexample. -/
theorem send_fault_aborts_witness :
    (sendEmailF sfC6 wSt "s@x" ["a@x", "b@x"] [] [] "hi" "hello" [] 0 =
      .sErr ((sendEmailF sfC6 wSt "s@x" ["a@x", "b@x"] [] [] "hi" "hello"
        [] 0).stOf)) ∧
    (wSt.emails <+: (sendEmailF sfC6 wSt "s@x" ["a@x", "b@x"] [] [] "hi" "hello"
      [] 0).stOf.emails) ∧
    (sfC6 wSt.saveOps = false →
      wSt.emails ++ [mkSent "s@x" (["a@x", "b@x"].filter notBlank)
        (([] : List String).filter notBlank) (([] : List String).filter notBlank)
        "hi" "hello" [] 0 wSt.nextEmailId] <+:
        (sendEmailF sfC6 wSt "s@x" ["a@x", "b@x"] [] [] "hi" "hello"
          [] 0).stOf.emails) := by
  refine ⟨by decide, ?_, ?_⟩
  · exact (send_fault_aborts sfC6 wSt "s@x" ["a@x", "b@x"] [] [] "hi" "hello" [] 0
      ((sendEmailF sfC6 wSt "s@x" ["a@x", "b@x"] [] [] "hi" "hello" [] 0).stOf)
      (by decide)).1
  · exact (send_fault_aborts sfC6 wSt "s@x" ["a@x", "b@x"] [] [] "hi" "hello" [] 0
      ((sendEmailF sfC6 wSt "s@x" ["a@x", "b@x"] [] [] "hi" "hello" [] 0).stOf)
      (by decide)).2

theorem find_erase_not_mem {p : LabelRec → Bool} {ls : List LabelRec} {l : LabelRec}
    (hnd : (ls.map fun l2 => l2.lid).Nodup) (hf : ls.find? p = some l) :
    l ∉ eraseFirstLabel p ls := by
  induction ls with
  | nil => cases hf
  | cons x rest ih =>
    rw [List.map_cons, List.nodup_cons] at hnd
    by_cases hx : p x = true
    · rw [List.find?_cons_of_pos _ hx] at hf
      cases hf
      unfold eraseFirstLabel
      rw [if_pos hx]
      intro hmem
      exact hnd.1 (List.mem_map.mpr ⟨l, hmem, rfl⟩)
    · rw [Bool.not_eq_true] at hx
      rw [List.find?_cons_of_neg _ (by rw [hx]; simp)] at hf
      unfold eraseFirstLabel
      rw [if_neg (by rw [hx]; simp)]
      intro hmem
      rcases List.mem_cons.mp hmem with rfl | hmem2
      · have := List.find?_some hf
        rw [hx] at this
        cases this
      · exact ih hnd.2 hf hmem2

/-- Claim C9: deleting one of the caller's labels fails with the policy
error when it is a system label (no state change: the error carries no new
state, and the function performs its check before any write); deleting a
non-system label removes that label from the label list and detaches its
id from every message, leaving every message otherwise unchanged (same
count, and each message equal up to the filtered label list). -/
theorem deleteLabel_spec (st : ServerState) (userId labelId : Nat) (l : LabelRec)
    (hfound : st.labels.find? (fun l2 => l2.lid == labelId && l2.userId == userId) =
      some l)
    (hnd : (st.labels.map fun l2 => l2.lid).Nodup) :
    (l.isSystemLabel = true →
      deleteLabel st userId labelId = .error "Cannot delete system label") ∧
    (l.isSystemLabel = false →
      ∃ st2, deleteLabel st userId labelId = .ok st2 ∧
        st2.emails = st.emails.map (detachLabel labelId) ∧
        st2.emails.length = st.emails.length ∧
        (∀ e ∈ st2.emails, labelId ∉ e.labels) ∧
        (∀ i : Nat, ∀ hi : i < st2.emails.length, ∀ hi0 : i < st.emails.length,
          (st2.emails.get ⟨i, hi⟩).sender = (st.emails.get ⟨i, hi0⟩).sender ∧
          (st2.emails.get ⟨i, hi⟩).recipients = (st.emails.get ⟨i, hi0⟩).recipients ∧
          (st2.emails.get ⟨i, hi⟩).folder = (st.emails.get ⟨i, hi0⟩).folder ∧
          (st2.emails.get ⟨i, hi⟩).subject = (st.emails.get ⟨i, hi0⟩).subject ∧
          (st2.emails.get ⟨i, hi⟩).body = (st.emails.get ⟨i, hi0⟩).body ∧
          (st2.emails.get ⟨i, hi⟩).isSpam = (st.emails.get ⟨i, hi0⟩).isSpam ∧
          (st2.emails.get ⟨i, hi⟩).labels =
            (st.emails.get ⟨i, hi0⟩).labels.filter fun x => x != labelId) ∧
        l ∉ st2.labels ∧
        st2.labels = eraseFirstLabel
          (fun l2 => l2.lid == labelId && l2.userId == userId) st.labels ∧
        st2.users = st.users ∧ st2.autoReplies = st.autoReplies ∧
        st2.notifications = st.notifications) := by
  constructor
  · intro hsys
    simp only [deleteLabel, hfound, hsys, if_true]
  · intro hsys
    refine ⟨{ st with
      labels := eraseFirstLabel (fun l2 => l2.lid == labelId && l2.userId == userId)
        st.labels,
      emails := st.emails.map (detachLabel labelId) }, ?_, rfl, by simp, ?_, ?_, ?_, rfl,
      rfl, rfl, rfl⟩
    · simp only [deleteLabel, hfound, hsys, Bool.false_eq_true, if_false]
    · intro e he
      rcases List.mem_map.mp he with ⟨e0, _, rfl⟩
      unfold detachLabel
      intro hmem
      rcases List.mem_filter.mp hmem with ⟨-, hne⟩
      simp at hne
    · intro i hi hi0
      simp only [List.get_eq_getElem, List.getElem_map]
      unfold detachLabel
      exact ⟨rfl, rfl, rfl, rfl, rfl, rfl, rfl⟩
    · exact find_erase_not_mem hnd hfound

/-- Witness for C9 at a concrete state holding one user label (attached to
an email) and one system Spam label. -/
theorem deleteLabel_spec_witness :
    ((⟨wUsers, [⟨0, "s@x", ["a@x"], [], [], "t", "b", [], Folder.inbox, [5, 7], false,
        false, false, 0⟩], [⟨5, 0, "work", false⟩, ⟨7, 0, "Spam", true⟩], [], [], 1, 8, 0,
        0⟩ : ServerState).labels.find?
      (fun l2 => l2.lid == 5 && l2.userId == 0) = some ⟨5, 0, "work", false⟩) ∧
    ((⟨5, 0, "work", false⟩ : LabelRec).isSystemLabel = false) ∧
    (∃ st2, deleteLabel (⟨wUsers, [⟨0, "s@x", ["a@x"], [], [], "t", "b", [], Folder.inbox,
        [5, 7], false, false, false, 0⟩], [⟨5, 0, "work", false⟩, ⟨7, 0, "Spam", true⟩],
        [], [], 1, 8, 0, 0⟩ : ServerState) 0 5 = .ok st2 ∧
      (∀ e ∈ st2.emails, (5 : Nat) ∉ e.labels)) := by
  refine ⟨by decide, by decide, ?_⟩
  obtain ⟨-, h2⟩ := deleteLabel_spec (⟨wUsers, [⟨0, "s@x", ["a@x"], [], [], "t", "b", [],
    Folder.inbox, [5, 7], false, false, false, 0⟩], [⟨5, 0, "work", false⟩,
    ⟨7, 0, "Spam", true⟩], [], [], 1, 8, 0, 0⟩ : ServerState) 0 5 ⟨5, 0, "work", false⟩
    (by decide) (by decide)
  obtain ⟨st2, hok, -, -, hdetach, -⟩ := h2 (by decide)
  exact ⟨st2, hok, hdetach⟩

/-- Claim C10: reply and forward locate the original by id alone — for an
existing message whose original sender is verified, a caller who is not
the sender nor in recipients, cc or bcc still succeeds in replying (and in
forwarding to any verified recipient list), whereas the trash path applies
the participant filter and rejects a non-participant with 404. -/
theorem reply_forward_no_membership
    (st : ServerState) (caller : String) (emailId : Nat) (body : String)
    (atts : List Attachment) (now : Nat) (orig : EmailRec)
    (hfind : st.emails.find? (fun e => e.eid == emailId) = some orig)
    (hver : (findVerified st.users orig.sender).isSome = true)
    (hnotp : isParticipant caller orig = false) :
    (isOkE (replyRun st caller emailId body atts now) = true) ∧
    (∀ (recipients : List String) (newAtts : List Attachment),
      recipients.isEmpty = false →
      (st.users.filter fun u => recipients.contains u.email &&
        u.isEmailVerified).length = recipients.length →
      isOkE (forwardRun st caller emailId recipients body newAtts now) = true) ∧
    (∀ caller2 : String,
      (∀ e ∈ st.emails, e.eid = emailId → isParticipant caller2 e = false) →
      moveToTrash st caller2 emailId = .error "Email not found or unauthorized") := by
  refine ⟨?_, ?_, ?_⟩
  · obtain ⟨ru, hru⟩ := Option.isSome_iff_exists.mp hver
    simp only [replyRun, hfind, hru, isOkE]
  · intro recipients newAtts hne hlen
    unfold forwardRun
    rw [hne]
    simp only [Bool.false_eq_true, if_false]
    rw [hfind]
    show isOkE (
      if ((st.users.filter fun u => recipients.contains u.email &&
          u.isEmailVerified).length != recipients.length) = true
      then Except.error "Some recipients not found or unverified"
      else
        match fanLoop noFault
          { senderEmail := caller, cc := [], bcc := [],
            subject := "Fwd: " ++ orig.subject,
            body := body ++ "<br><br>--- Forwarded Message ---<br>" ++ orig.body,
            attachments := orig.attachments ++ newAtts, sentAt := now,
            rus := st.users.filter fun u =>
              recipients.contains u.email && u.isEmailVerified,
            v := detectSpam st.users
              { eid := 0, sender := caller, recipients := recipients, cc := [],
                bcc := [], subject := "Fwd: " ++ orig.subject,
                body := body ++ "<br><br>--- Forwarded Message ---<br>" ++ orig.body,
                attachments := orig.attachments ++ newAtts, folder := .sent,
                labels := [], isRead := false, isStarred := false, isSpam := false,
                sentAt := now } caller }
          false recipients
          { st with
            classifierCalls := st.classifierCalls + 1,
            emails := st.emails ++
              [{ eid := st.nextEmailId, sender := caller, recipients := recipients,
                 cc := [], bcc := [], subject := "Fwd: " ++ orig.subject,
                 body := body ++ "<br><br>--- Forwarded Message ---<br>" ++ orig.body,
                 attachments := orig.attachments ++ newAtts, folder := .sent,
                 labels := [], isRead := false, isStarred := false, isSpam := false,
                 sentAt := now }],
            nextEmailId := st.nextEmailId + 1 } with
        | .error _ => Except.error "Server error"
        | .ok st3 => Except.ok st3) = true
    have hcond : ((st.users.filter fun u => recipients.contains u.email &&
        u.isEmailVerified).length != recipients.length) = false := by
      rw [hlen]
      exact bne_self_eq_false recipients.length
    rw [hcond]
    simp only [Bool.false_eq_true, if_false]
    obtain ⟨st3, h3⟩ := fanLoop_noFault_ok
      { senderEmail := caller, cc := [], bcc := [], subject := "Fwd: " ++ orig.subject,
        body := body ++ "<br><br>--- Forwarded Message ---<br>" ++ orig.body,
        attachments := orig.attachments ++ newAtts, sentAt := now,
        rus := st.users.filter fun u => recipients.contains u.email && u.isEmailVerified,
        v := detectSpam st.users
          { eid := 0, sender := caller, recipients := recipients, cc := [], bcc := [],
            subject := "Fwd: " ++ orig.subject,
            body := body ++ "<br><br>--- Forwarded Message ---<br>" ++ orig.body,
            attachments := orig.attachments ++ newAtts, folder := .sent, labels := [],
            isRead := false, isStarred := false, isSpam := false, sentAt := now } caller }
      false recipients
      { st with
        classifierCalls := st.classifierCalls + 1,
        emails := st.emails ++
          [{ eid := st.nextEmailId, sender := caller, recipients := recipients, cc := [],
             bcc := [], subject := "Fwd: " ++ orig.subject,
             body := body ++ "<br><br>--- Forwarded Message ---<br>" ++ orig.body,
             attachments := orig.attachments ++ newAtts, folder := .sent, labels := [],
             isRead := false, isStarred := false, isSpam := false, sentAt := now }],
        nextEmailId := st.nextEmailId + 1 }
    rw [h3]
    rfl
  · intro caller2 hnp
    have hany : (st.emails.any fun e => e.eid == emailId && isParticipant caller2 e) =
        false := by
      rw [← Bool.not_eq_true, List.any_eq_true]
      rintro ⟨e, he, hp⟩
      rcases Bool.and_eq_true _ _ |>.mp hp with ⟨hid, hpart⟩
      rw [hnp e he (by simpa using hid)] at hpart
      cases hpart
    simp only [moveToTrash, hany, Bool.false_eq_true, if_false]

/-- A concrete state with one stored message from `s@x` to `a@x`;
`c@x` is verified but not a participant. -/
def wStMsg : ServerState :=
  ⟨wUsers, [⟨0, "s@x", ["a@x"], [], [], "t", "b", [], Folder.inbox, [], false, false,
    false, 0⟩], [], [], [], 1, 0, 0, 0⟩

/-- Witness for C10: non-participant `c@x` can reply to and forward the
stored message, while their move-to-trash is rejected. -/
theorem reply_forward_no_membership_witness :
    (wStMsg.emails.find? (fun e => e.eid == 0) = some ⟨0, "s@x", ["a@x"], [], [], "t",
      "b", [], Folder.inbox, [], false, false, false, 0⟩) ∧
    ((findVerified wStMsg.users "s@x").isSome = true) ∧
    (isParticipant "c@x" ⟨0, "s@x", ["a@x"], [], [], "t", "b", [], Folder.inbox, [],
      false, false, false, 0⟩ = false) ∧
    (isOkE (replyRun wStMsg "c@x" 0 "yo" [] 9) = true) ∧
    (∀ (recipients : List String) (newAtts : List Attachment),
      recipients.isEmpty = false →
      (wStMsg.users.filter fun u => recipients.contains u.email &&
        u.isEmailVerified).length = recipients.length →
      isOkE (forwardRun wStMsg "c@x" 0 recipients "yo" newAtts 9) = true) ∧
    (∀ caller2 : String,
      (∀ e ∈ wStMsg.emails, e.eid = 0 → isParticipant caller2 e = false) →
      moveToTrash wStMsg caller2 0 = .error "Email not found or unauthorized") := by
  obtain ⟨h1, h2, h3⟩ := reply_forward_no_membership wStMsg "c@x" 0 "yo" [] 9
    ⟨0, "s@x", ["a@x"], [], [], "t", "b", [], Folder.inbox, [], false, false, false, 0⟩
    (by decide) (by decide) (by decide)
  exact ⟨by decide, by decide, by decide, h1, h2, h3⟩

end GmailBackend
